import Mathlib

/-!
Shallow embedding of the OLT report parser (`parse_olt_output` in
`olt_parser_app.py`) and verification of the frozen claims about it.

Strings are modelled as `List Char`.  The Python regular expressions are
hand-translated into deterministic character-list matchers; where the
regex engine's backtracking could in principle matter, the translation
follows the observable behaviour of the pattern (the adjacent character
classes are disjoint, so greedy maximal-munch with ordered alternation
is equivalent; this is argued case by case in comments).  Character
classes `\d`, `\w`, `\s` are modelled over ASCII, matching the inputs the
program is written for.
-/

abbrev Str := List Char

/-- Python `\s` (ASCII): space, tab, newline, vertical tab, form feed, CR. -/
def isSpace (c : Char) : Bool :=
  c = ' ' || c = '\t' || c = '\n' || c = '\x0b' || c = '\x0c' || c = '\r'

/-- Python `\d` (ASCII). -/
def isDigit (c : Char) : Bool := '0' ≤ c && c ≤ '9'

/-- Hex digit, the class `[0-9A-Fa-f]` of `TABLE2_DATA_RE`. -/
def isHex (c : Char) : Bool :=
  isDigit c || ('A' ≤ c && c ≤ 'F') || ('a' ≤ c && c ≤ 'f')

/-- Python `\w` (ASCII): letters, digits, underscore. -/
def isWord (c : Char) : Bool :=
  isDigit c || ('A' ≤ c && c ≤ 'Z') || ('a' ≤ c && c ≤ 'z') || c = '_'

/-- The class `[\d-]` (timestamp date part). -/
def isDC (c : Char) : Bool := isDigit c || c = '-'

/-- The class `[\d:]` (timestamp time part). -/
def isCol (c : Char) : Bool := isDigit c || c = ':'

/-- The down-cause character class: word characters, slash, hyphen. -/
def isCause (c : Char) : Bool := isWord c || c = '/' || c = '-'

/-- Python `str.strip()`: drop leading and trailing whitespace. -/
def strip (s : Str) : Str :=
  ((s.dropWhile isSpace).reverse.dropWhile isSpace).reverse

/-- Python `str.splitlines()` (modelling the terminators newline, CR, CRLF). -/
def splitlinesGo (acc : Str) : Str → List Str
  | [] => if acc.isEmpty then [] else [acc.reverse]
  | '\r' :: '\n' :: rest => acc.reverse :: splitlinesGo [] rest
  | '\r' :: rest => acc.reverse :: splitlinesGo [] rest
  | '\n' :: rest => acc.reverse :: splitlinesGo [] rest
  | c :: rest => splitlinesGo (c :: acc) rest

def splitlines (s : Str) : List Str := splitlinesGo [] s

/-- Python `str.split()` with no argument: split on whitespace runs,
dropping empty pieces.  `acc` holds the current token reversed. -/
def splitWsAux (acc : Str) : Str → List Str
  | [] => if acc.isEmpty then [] else [acc.reverse]
  | c :: rest =>
    if isSpace c then
      if acc.isEmpty then splitWsAux [] rest
      else acc.reverse :: splitWsAux [] rest
    else splitWsAux (c :: acc) rest

def splitWs (s : Str) : List Str := splitWsAux [] s

/-- Python `int` on a run of decimal digits. -/
def natOfDigits (s : Str) : Nat :=
  s.foldl (fun n c => 10 * n + (c.toNat - 48)) 0

/-- Take exactly `n` characters, all satisfying `p`; return them and the rest. -/
def takeN (p : Char → Bool) : Nat → Str → Option (Str × Str)
  | 0, s => some ([], s)
  | _ + 1, [] => none
  | n + 1, c :: rest =>
    if p c then
      match takeN p n rest with
      | some (a, r) => some (c :: a, r)
      | none => none
    else none

/-- `\d+`: at least one digit, maximal munch. -/
def digits1 (s : Str) : Option (Str × Str) :=
  match s.span isDigit with
  | (d, rest) => if d.isEmpty then none else some (d, rest)

/-- `\s+`: at least one whitespace character, then drop the whole run.
    Used only where the following pattern piece cannot match whitespace,
    so maximal munch agrees with the regex engine. -/
def reqWs (s : Str) : Option Str :=
  match s with
  | [] => none
  | c :: rest => if isSpace c then some (rest.dropWhile isSpace) else none

/-- Consume a literal. -/
def litM (lit : Str) (s : Str) : Option Str :=
  match lit, s with
  | [], s => some s
  | _ :: _, [] => none
  | a :: la, c :: rest => if a = c then litM la rest else none

/-- A slash occurring somewhere other than the last position of the list.
    On the tail of the power token this expresses: the token contains a
    slash that is neither its first nor its last character, which is
    exactly when the token fully matches the power-field alternation
    (nonspace-run, slash, optional hyphen, nonspace-run; or the literal
    hyphen-slash-hyphen). -/
def slashNotLast : Str → Bool
  | [] => false
  | [_] => false
  | c :: d :: rest => c = '/' || slashNotLast (d :: rest)

def hasInteriorSlash : Str → Bool
  | [] => false
  | _ :: rest => slashNotLast rest

/-! ## The regex matchers -/

/-- Result of `TABLE1_DATA_RE.match` (groups 1-5). -/
structure T1M where
  ontId : Str
  runState : Str
  upDT : Str
  downDT : Str
  cause : Str
deriving DecidableEq, Repr

/-- Group `([\d-]{10}\s[\d:]{8}|-)`: dated timestamp or a bare hyphen.
    If the first alternative matches, the second cannot yield an overall
    match (the character after a leading `-` would be in `[\d-]`, never
    whitespace), so committing to it is faithful. -/
def tsField (s : Str) : Option (Str × Str) :=
  match takeN isDC 10 s with
  | some (d10, r1) =>
    (match r1 with
     | c :: r2 =>
       if isSpace c then
         match takeN isCol 8 r2 with
         | some (t8, r3) => some (d10 ++ c :: t8, r3)
         | none => if s.head? = some '-' then some (['-'], s.tail) else none
       else if s.head? = some '-' then some (['-'], s.tail) else none
     | [] => if s.head? = some '-' then some (['-'], s.tail) else none)
  | none => if s.head? = some '-' then some (['-'], s.tail) else none

/-- `TABLE1_DATA_RE.match` on a (stripped) line. -/
def table1Match (line : Str) : Option T1M := do
  let s0 := line.dropWhile isSpace
  let (ontId, s1) ← digits1 s0
  let s2 ← reqWs s1
  let (runState, s3) ←
    match litM ('o' :: 'n' :: 'l' :: 'i' :: 'n' :: 'e' :: []) s2 with
    | some r => some (('o' :: 'n' :: 'l' :: 'i' :: 'n' :: 'e' :: []), r)
    | none =>
      match litM ('o' :: 'f' :: 'f' :: 'l' :: 'i' :: 'n' :: 'e' :: []) s2 with
      | some r => some (('o' :: 'f' :: 'f' :: 'l' :: 'i' :: 'n' :: 'e' :: []), r)
      | none => none
  let s4 ← reqWs s3
  let (upDT, s5) ← tsField s4
  let s6 ← reqWs s5
  let (downDT, s7) ← tsField s6
  let s8 ← reqWs s7
  let (cause, s9) := s8.span isCause
  if cause.isEmpty then none
  else if s9.all isSpace then some ⟨ontId, runState, upDT, downDT, cause⟩
  else none

/-- Result of `TABLE2_DATA_RE.match` (groups 1-6; `descr` is the raw
    group 6, before the `.strip()` applied at store time). -/
structure T2M where
  ontId : Str
  sn : Str
  ontType : Str
  dist : Str
  pow : Str
  descr : Str
deriving DecidableEq, Repr

/-- Group 2 of `TABLE2_DATA_RE`: exactly 16 hex characters, else a bare
    hyphen.  If the 16-hex alternative matches here but the rest of the
    pattern fails, the hyphen alternative cannot give an overall match
    (the second character would be hex, never whitespace), so ordered
    commitment is faithful to the regex engine. -/
def snField (s : Str) : Option (Str × Str) :=
  match takeN isHex 16 s with
  | some (h16, r) => some (h16, r)
  | none => if s.head? = some '-' then some (['-'], s.tail) else none

/-- Group 4 of `TABLE2_DATA_RE`: a maximal digit run, else a bare hyphen;
    the same commitment argument applies. -/
def distField (s : Str) : Option (Str × Str) :=
  if (s.head?.map isDigit).getD false then some (s.span isDigit)
  else if s.head? = some '-' then some (['-'], s.tail) else none

/-- `TABLE2_DATA_RE.match` on a (stripped) line. -/
def table2Match (line : Str) : Option T2M := do
  let s0 := line.dropWhile isSpace
  let (ontId, s1) ← digits1 s0
  let s2 ← reqWs s1
  let (sn, s3) ← snField s2
  let s4 ← reqWs s3
  let (typ, s5) :=
    match s4.span (fun c => !(isSpace c)) with
    | (t, r) => (t, r)
  if typ.isEmpty then none else do
  let s6 ← reqWs s5
  let (dist, s7) ← distField s6
  let s8 ← reqWs s7
  let (pow, s9) :=
    match s8.span (fun c => !(isSpace c)) with
    | (t, r) => (t, r)
  if pow.isEmpty then none
  else if hasInteriorSlash pow then do
    let s10 ← reqWs s9
    some ⟨ontId, sn, typ, dist, pow, s10⟩
  else none

/-- `PORT_HEADER_RE` matched at the start of `s`; returns group 1,
    the `board/slot/port` identifier. -/
def portMatchAt (s : Str) : Option Str := do
  let s ← litM ("In port ".data) s
  let (b, s) ← digits1 s
  let s ← litM ("/".data) s
  let (sl, s) ← digits1 s
  let s ← litM ("/".data) s
  let (pt, s) ← digits1 s
  let s ← litM (", the total of ONTs are: ".data) s
  let (_, s) ← digits1 s
  let s ← litM (", online: ".data) s
  let (_, _) ← digits1 s
  some (b ++ '/' :: sl ++ '/' :: pt)

/-- `PORT_HEADER_RE.search`: leftmost match anywhere in the line. -/
def portSearch : Str → Option Str
  | [] => none
  | c :: rest =>
    match portMatchAt (c :: rest) with
    | some r => some r
    | none => portSearch rest

/-- `TABLE1_HEADER_RE` (`ONT\s+Run\s+Last\s+Last\s+Last`) at the start. -/
def t1HeaderAt (s : Str) : Bool :=
  (do
    let s ← litM ("ONT".data) s
    let s ← reqWs s
    let s ← litM ("Run".data) s
    let s ← reqWs s
    let s ← litM ("Last".data) s
    let s ← reqWs s
    let s ← litM ("Last".data) s
    let s ← reqWs s
    let _ ← litM ("Last".data) s
    some ()).isSome

def t1HeaderSearch : Str → Bool
  | [] => false
  | c :: rest => t1HeaderAt (c :: rest) || t1HeaderSearch rest

/-- `TABLE2_HEADER_RE` (`ONT\s+SN\s+Type\s+Distance\s+Rx/Tx power\s+Description`). -/
def t2HeaderAt (s : Str) : Bool :=
  (do
    let s ← litM ("ONT".data) s
    let s ← reqWs s
    let s ← litM ("SN".data) s
    let s ← reqWs s
    let s ← litM ("Type".data) s
    let s ← reqWs s
    let s ← litM ("Distance".data) s
    let s ← reqWs s
    let s ← litM ("Rx/Tx power".data) s
    let s ← reqWs s
    let _ ← litM ("Description".data) s
    some ()).isSome

def t2HeaderSearch : Str → Bool
  | [] => false
  | c :: rest => t2HeaderAt (c :: rest) || t2HeaderSearch rest

/-- `line.startswith('---')`. -/
def isSep (line : Str) : Bool := ("---".data).isPrefixOf line

/-! ## PoP-name derivation -/

/-- Python `str.split(sep)` on a single-character separator: keeps empty
    pieces, result is always nonempty. -/
def pySplit (sep : Char) : Str → List Str
  | [] => [[]]
  | c :: rest =>
    if c = sep then [] :: pySplit sep rest
    else
      match pySplit sep rest with
      | h :: t => (c :: h) :: t
      | [] => [[c]]

/-- Python `str.upper()` (ASCII). -/
def pyUpper (s : Str) : Str :=
  s.map (fun c => if 'a' ≤ c && c ≤ 'z' then Char.ofNat (c.toNat - 32) else c)

/-- The suffix the site-group heuristic tests for (`"NOC1"`). -/
def NOC1 : Str := "NOC1".data

/-- The default PoP marker, `'Unknown PoP'` in the source; this string is
    the realisation of the spec's "unknown" site-group sentinel. -/
def UnknownPoP : Str := "Unknown PoP".data

/-- The sentinel for Table-2-sourced fields with no matching Table-2 row,
    `'N/A'` in the source; this string is the realisation of the spec's
    "not available" sentinel. -/
def NA : Str := "N/A".data

/-- Lines 55-70 of the source: derive the PoP (site-group) label from the
    OLT name. -/
def derivePop (oltName : Str) : Str :=
  let parts := pySplit '-' oltName
  if parts.length ≥ 3 then
    let lastPart := parts.getLastD []
    if NOC1.isSuffixOf (pyUpper lastPart) then lastPart
    else if lastPart.length ≥ 5 then lastPart
    else if parts.length ≥ 4 then (parts.dropLast.getLastD []) ++ '-' :: lastPart
    else UnknownPoP
  else UnknownPoP

/-! ## Accumulators (insertion-ordered dictionaries) -/

/-- Python-dict insertion: an existing key keeps its position and gets the
    new value; a new key goes to the end. -/
def dinsert (k : Str) (v : α) : List (Str × α) → List (Str × α)
  | [] => [(k, v)]
  | (k', v') :: rest =>
    if k' = k then (k, v) :: rest else (k', v') :: dinsert k v rest

/-- Python-dict lookup. -/
def dget (k : Str) : List (Str × α) → Option α
  | [] => none
  | (k', v') :: rest => if k' = k then some v' else dget k rest

/-! ## Records, state, and the line-by-line state machine -/

structure T1Row where
  runState : Str
  upDateTime : Str
  downDateTime : Str
  downCause : Str
deriving DecidableEq, Repr

structure T2Row where
  sn : Str
  ontType : Str
  distance : Str
  pow : Str
  description : Str
deriving DecidableEq, Repr

structure Record where
  oltName : Str
  ponPort : Str
  ontId : Nat
  runState : Str
  lastUpDate : Str
  lastUpTime : Str
  lastDownDate : Str
  lastDownTime : Str
  lastDownCause : Str
  sn : Str
  ontType : Str
  distance : Str
  pow : Str
  description : Str
  pop : Str
deriving DecidableEq, Repr

inductive TState | table1 | table2
deriving DecidableEq, Repr

structure PState where
  allOnt : List Record
  currentPort : Option Str
  parsingState : Option TState
  t1 : List (Str × T1Row)
  t2 : List (Str × T2Row)
deriving DecidableEq, Repr

def initState : PState := ⟨[], none, none, [], []⟩

/-- The hardware-type remap (lines 158-161 of the source). -/
def remapType (t : Str) : Str :=
  if t = "1112".data then "GP1702-4G".data
  else if t = "1108".data then "GP1702-4G-M".data
  else t

/-- `s.split()` unpacked into two parts when `s ≠ '-'`, else `('-','-')`
    (lines 90-91 / 180-181).  The two-variable unpacking raises in Python
    unless the split has exactly two parts; that partiality is the `none`
    case here. -/
def splitTS (s : Str) : Option (Str × Str) :=
  if s = "-".data then some ("-".data, "-".data)
  else
    match splitWs s with
    | [a, b] => some (a, b)
    | _ => none

/-- Assemble one output record from a Table-1 entry and the optional
    matching Table-2 entry (the record literal at lines 93-109). -/
def buildRecord (oltName popName port k : Str) (r : T1Row) (o : Option T2Row) :
    Option Record :=
  match splitTS r.upDateTime, splitTS r.downDateTime with
  | some (ud, ut), some (dd, dt) =>
    some
      { oltName := oltName
        ponPort := port
        ontId := natOfDigits k
        runState := r.runState
        lastUpDate := ud
        lastUpTime := ut
        lastDownDate := dd
        lastDownTime := dt
        lastDownCause := r.downCause
        sn := match o with | some t => t.sn | none => NA
        ontType := match o with | some t => t.ontType | none => NA
        distance := match o with | some t => t.distance | none => NA
        pow := match o with | some t => t.pow | none => NA
        description := match o with | some t => t.description | none => NA
        pop := popName }
  | _, _ => none

/-- The flush loop (lines 85-110 / 176-200): one record per Table-1
    accumulator entry, in insertion order. -/
def flushRecords (oltName popName port : Str) (t2 : List (Str × T2Row)) :
    List (Str × T1Row) → Option (List Record)
  | [] => some []
  | (k, r) :: rest =>
    match buildRecord oltName popName port k r (dget k t2),
          flushRecords oltName popName port t2 rest with
    | some rec, some recs => some (rec :: recs)
    | _, _ => none

/-- One iteration of the main loop (lines 74-171). -/
def step (oltName popName : Str) (st : PState) (raw : Str) : Option PState :=
  let line := strip raw
  if line.isEmpty then some st
  else
    match portSearch line with
    | some pid =>
      match st.currentPort with
      | some port =>
        match flushRecords oltName popName port st.t2 st.t1 with
        | some recs => some ⟨st.allOnt ++ recs, some pid, none, [], []⟩
        | none => none
      | none => some ⟨st.allOnt, some pid, none, [], []⟩
    | none =>
      match st.currentPort with
      | none => some st
      | some _ =>
        if t1HeaderSearch line then some { st with parsingState := some .table1 }
        else if t2HeaderSearch line then some { st with parsingState := some .table2 }
        else if isSep line then some st
        else
          match st.parsingState with
          | some .table1 =>
            match table1Match line with
            | some m =>
              some { st with
                t1 := dinsert m.ontId ⟨m.runState, m.upDT, m.downDT, m.cause⟩ st.t1 }
            | none => some st
          | some .table2 =>
            match table2Match line with
            | some m =>
              some { st with
                t2 := dinsert m.ontId
                  ⟨m.sn, remapType m.ontType, m.dist, m.pow, strip m.descr⟩ st.t2 }
            | none => some st
          | none => some st

/-- The loop over all lines. -/
def runLines (oltName popName : Str) : PState → List Str → Option PState
  | st, [] => some st
  | st, l :: rest =>
    match step oltName popName st l with
    | some st' => runLines oltName popName st' rest
    | none => none

/-- `parse_olt_output` (lines 37-202): run the state machine over the
    lines, then flush the last open port section.  The `none` result
    models a raised exception (which the claims say cannot happen). -/
def parse_olt_output (textContent oltName : Str) : Option (List Record) :=
  let popName := derivePop oltName
  match runLines oltName popName initState (splitlines textContent) with
  | none => none
  | some st =>
    match st.currentPort with
    | none => some st.allOnt
    | some port =>
      match flushRecords oltName popName port st.t2 st.t1 with
      | some recs => some (st.allOnt ++ recs)
      | none => none

/-- Invariant maintained by the state machine: every stored Table-1 entry
    has timestamps the flush can split without error. -/
def InvS (st : PState) : Prop :=
  ∀ kv ∈ st.t1, (splitTS kv.2.upDateTime).isSome ∧ (splitTS kv.2.downDateTime).isSome

/-! ## Helper lemmas -/

theorem dget_dinsert_self (k : Str) (v : α) (t : List (Str × α)) :
    dget k (dinsert k v t) = some v := by
  induction t with
  | nil => simp [dinsert, dget]
  | cons hd tl ih =>
    obtain ⟨k', v'⟩ := hd
    by_cases h : k' = k
    · simp [dinsert, dget, h]
    · simp [dinsert, dget, h, ih]

theorem dget_dinsert_ne (k k' : Str) (v : α) (t : List (Str × α)) (h : k' ≠ k) :
    dget k' (dinsert k v t) = dget k' t := by
  induction t with
  | nil =>
    simp only [dinsert, dget]
    rw [if_neg (fun hh => h hh.symm)]
  | cons hd tl ih =>
    obtain ⟨k0, v0⟩ := hd
    by_cases h0 : k0 = k
    · subst h0
      simp only [dinsert, if_pos rfl, dget]
      rw [if_neg (fun hh => h hh.symm), if_neg (fun hh => h hh.symm)]
    · simp only [dinsert, if_neg h0, dget]
      by_cases h1 : k0 = k'
      · rw [if_pos h1, if_pos h1]
      · rw [if_neg h1, if_neg h1, ih]

theorem dinsert_of_dget_none (k : Str) (v : α) (t : List (Str × α))
    (h : dget k t = none) : dinsert k v t = t ++ [(k, v)] := by
  induction t with
  | nil => simp [dinsert]
  | cons hd tl ih =>
    obtain ⟨k0, v0⟩ := hd
    rw [dget] at h
    by_cases h0 : k0 = k
    · rw [if_pos h0] at h
      exact absurd h (by simp)
    · rw [if_neg h0] at h
      simp only [dinsert, if_neg h0, List.cons_append, List.cons.injEq, true_and]
      exact ih h

theorem keys_dinsert_of_isSome (k : Str) (v : α) (t : List (Str × α))
    (h : (dget k t).isSome) : (dinsert k v t).map Prod.fst = t.map Prod.fst := by
  induction t with
  | nil => simp [dget] at h
  | cons hd tl ih =>
    obtain ⟨k0, v0⟩ := hd
    by_cases h0 : k0 = k
    · simp [dinsert, h0]
    · simp only [dget, if_neg h0] at h
      simp [dinsert, if_neg h0, ih h]

theorem mem_dinsert (k : Str) (v : α) (t : List (Str × α)) (kv : Str × α)
    (h : kv ∈ dinsert k v t) : kv = (k, v) ∨ kv ∈ t := by
  induction t with
  | nil => simpa [dinsert] using h
  | cons hd tl ih =>
    obtain ⟨k0, v0⟩ := hd
    by_cases h0 : k0 = k
    · simp only [dinsert, if_pos h0, List.mem_cons] at h
      rcases h with h | h
      · exact Or.inl h
      · exact Or.inr (List.mem_cons_of_mem _ h)
    · simp only [dinsert, if_neg h0, List.mem_cons] at h
      rcases h with h | h
      · exact Or.inr (List.mem_cons.2 (Or.inl h))
      · rcases ih h with h' | h'
        · exact Or.inl h'
        · exact Or.inr (List.mem_cons_of_mem _ h')

theorem takeN_spec (p : Char → Bool) :
    ∀ (n : Nat) (s a r : Str), takeN p n s = some (a, r) →
      a.length = n ∧ (∀ c ∈ a, p c = true) ∧ s = a ++ r := by
  intro n
  induction n with
  | zero =>
    intro s a r h
    simp only [takeN, Option.some.injEq, Prod.mk.injEq] at h
    obtain ⟨rfl, rfl⟩ := h
    simp
  | succ m ih =>
    intro s a r h
    match s with
    | [] => simp [takeN] at h
    | c :: rest =>
      simp only [takeN] at h
      by_cases hc : p c
      · rw [if_pos hc] at h
        match htn : takeN p m rest with
        | some (a', r') =>
          rw [htn] at h
          simp only [Option.some.injEq, Prod.mk.injEq] at h
          obtain ⟨ha, hr⟩ := h
          subst ha
          subst hr
          obtain ⟨hl, hall, hsp⟩ := ih rest a' r' htn
          refine ⟨by simp [hl], ?_, by simp [hsp]⟩
          intro x hx
          rcases List.mem_cons.1 hx with rfl | hx
          · exact hc
          · exact hall x hx
        | none => rw [htn] at h; simp at h
      · rw [if_neg hc] at h; simp at h

theorem isSpace_elim (c : Char) (h : isSpace c = true) :
    c = ' ' ∨ c = '\t' ∨ c = '\n' ∨ c = '\x0b' ∨ c = '\x0c' ∨ c = '\r' := by
  simp only [isSpace, Bool.or_eq_true, decide_eq_true_eq] at h
  tauto

theorem isDC_not_space (c : Char) (h : isDC c = true) : isSpace c = false := by
  cases hs : isSpace c with
  | false => rfl
  | true =>
    exfalso
    rcases isSpace_elim c hs with rfl | rfl | rfl | rfl | rfl | rfl <;>
      simp [isDC, isDigit] at h

theorem isCol_not_space (c : Char) (h : isCol c = true) : isSpace c = false := by
  cases hs : isSpace c with
  | false => rfl
  | true =>
    exfalso
    rcases isSpace_elim c hs with rfl | rfl | rfl | rfl | rfl | rfl <;>
      simp [isCol, isDigit] at h

theorem splitWsAux_append (a : Str) (hns : ∀ c ∈ a, isSpace c = false) :
    ∀ (acc rest : Str), splitWsAux acc (a ++ rest) = splitWsAux (a.reverse ++ acc) rest := by
  induction a with
  | nil => intro acc rest; simp
  | cons c a' ih =>
    intro acc rest
    have hc : isSpace c = false := hns c (List.mem_cons_self c a')
    simp only [List.cons_append, splitWsAux, hc, Bool.false_eq_true, if_false,
      List.reverse_cons, List.append_assoc, List.singleton_append]
    exact ih (fun x hx => hns x (List.mem_cons_of_mem _ hx)) (c :: acc) rest

theorem splitWs_two (a b : Str) (c : Char) (ha : a ≠ []) (hb : b ≠ [])
    (hans : ∀ x ∈ a, isSpace x = false) (hbns : ∀ x ∈ b, isSpace x = false)
    (hc : isSpace c = true) : splitWs (a ++ c :: b) = [a, b] := by
  unfold splitWs
  rw [splitWsAux_append a hans [] (c :: b)]
  have hra : (a.reverse ++ ([] : Str)).isEmpty = false := by
    rcases List.exists_cons_of_ne_nil ha with ⟨x, xs, rfl⟩
    simp
  simp only [splitWsAux, hc, if_true, hra, Bool.false_eq_true, if_false]
  have hb2 : splitWsAux [] b = [b] := by
    have := splitWsAux_append b hbns [] []
    simp only [List.append_nil] at this
    rw [this]
    simp only [splitWsAux, List.isEmpty_eq_true, List.reverse_eq_nil_iff]
    rw [if_neg hb]
    simp
  rw [hb2]
  simp [List.append_nil]

theorem splitTS_of_parts (a b : Str) (c : Char) (ha : a ≠ []) (hb : b ≠ [])
    (hans : ∀ x ∈ a, isSpace x = false) (hbns : ∀ x ∈ b, isSpace x = false)
    (hc : isSpace c = true) : splitTS (a ++ c :: b) = some (a, b) := by
  have hne : a ++ c :: b ≠ "-".data := by
    intro hh
    have hlen := congrArg List.length hh
    have h1 : (("-".data) : Str).length = 1 := rfl
    rw [h1] at hlen
    rcases List.exists_cons_of_ne_nil ha with ⟨x, xs, rfl⟩
    rcases List.exists_cons_of_ne_nil hb with ⟨y, ys, rfl⟩
    simp [List.length_append] at hlen
  unfold splitTS
  rw [if_neg hne, splitWs_two a b c ha hb hans hbns hc]

theorem tsField_splits (s v r : Str) (h : tsField s = some (v, r)) :
    (splitTS v).isSome := by
  have hyph : (splitTS ("-".data : Str)).isSome = true := by decide
  unfold tsField at h
  split at h
  · rename_i d10 r1 heq1
    split at h
    · rename_i c r2
      split at h
      · rename_i hcs
        split at h
        · rename_i t8 r3 heq2
          simp only [Option.some.injEq, Prod.mk.injEq] at h
          obtain ⟨hv, hr⟩ := h
          subst hv
          obtain ⟨hl10, hdc, hsp10⟩ := takeN_spec isDC 10 s d10 (c :: r2) heq1
          obtain ⟨hl8, hcol, hsp8⟩ := takeN_spec isCol 8 r2 t8 r3 heq2
          rw [splitTS_of_parts d10 t8 c
            (by intro hh; rw [hh] at hl10; simp at hl10)
            (by intro hh; rw [hh] at hl8; simp at hl8)
            (fun x hx => isDC_not_space x (hdc x hx))
            (fun x hx => isCol_not_space x (hcol x hx)) hcs]
          rfl
        · split at h
          · simp only [Option.some.injEq, Prod.mk.injEq] at h
            obtain ⟨hv, hr⟩ := h
            rw [← hv]
            exact hyph
          · simp at h
      · split at h
        · simp only [Option.some.injEq, Prod.mk.injEq] at h
          obtain ⟨hv, hr⟩ := h
          rw [← hv]
          exact hyph
        · simp at h
    · split at h
      · simp only [Option.some.injEq, Prod.mk.injEq] at h
        obtain ⟨hv, hr⟩ := h
        rw [← hv]
        exact hyph
      · simp at h
  · split at h
    · simp only [Option.some.injEq, Prod.mk.injEq] at h
      obtain ⟨hv, hr⟩ := h
      rw [← hv]
      exact hyph
    · simp at h

theorem table1Match_splits (line : Str) (m : T1M) (h : table1Match line = some m) :
    (splitTS m.upDT).isSome ∧ (splitTS m.downDT).isSome := by
  unfold table1Match at h
  simp only [bind, Option.bind_eq_some] at h
  obtain ⟨⟨g1, s1⟩, h1, h⟩ := h
  obtain ⟨s2, h2, h⟩ := h
  split at h
  · simp only [Option.some_bind, Option.bind_eq_some] at h
    obtain ⟨s4, h4, h⟩ := h
    obtain ⟨⟨g3, s5⟩, h5, h⟩ := h
    obtain ⟨s6, h6, h⟩ := h
    obtain ⟨⟨g4, s7⟩, h7, h⟩ := h
    obtain ⟨s8, h8, h⟩ := h
    split at h
    · simp at h
    · split at h
      · simp only [Option.some.injEq] at h
        subst h
        exact ⟨tsField_splits _ _ _ h5, tsField_splits _ _ _ h7⟩
      · simp at h
  · split at h
    · simp only [Option.some_bind, Option.bind_eq_some] at h
      obtain ⟨s4, h4, h⟩ := h
      obtain ⟨⟨g3, s5⟩, h5, h⟩ := h
      obtain ⟨s6, h6, h⟩ := h
      obtain ⟨⟨g4, s7⟩, h7, h⟩ := h
      obtain ⟨s8, h8, h⟩ := h
      split at h
      · simp at h
      · split at h
        · simp only [Option.some.injEq] at h
          subst h
          exact ⟨tsField_splits _ _ _ h5, tsField_splits _ _ _ h7⟩
        · simp at h
    · simp at h

theorem buildRecord_isSome (oltName popName port k : Str) (r : T1Row) (o : Option T2Row)
    (hu : (splitTS r.upDateTime).isSome) (hd : (splitTS r.downDateTime).isSome) :
    (buildRecord oltName popName port k r o).isSome := by
  unfold buildRecord
  obtain ⟨⟨ud, ut⟩, hu'⟩ := Option.isSome_iff_exists.1 hu
  obtain ⟨⟨dd, dt⟩, hd'⟩ := Option.isSome_iff_exists.1 hd
  rw [hu', hd']
  rfl

theorem buildRecord_spec (oltName popName port k : Str) (r : T1Row) (o : Option T2Row)
    (rec : Record) (h : buildRecord oltName popName port k r o = some rec) :
    rec.oltName = oltName ∧ rec.ponPort = port ∧ rec.ontId = natOfDigits k ∧
    rec.runState = r.runState ∧ rec.lastDownCause = r.downCause ∧
    splitTS r.upDateTime = some (rec.lastUpDate, rec.lastUpTime) ∧
    splitTS r.downDateTime = some (rec.lastDownDate, rec.lastDownTime) ∧
    rec.pop = popName ∧
    (o = none → rec.sn = NA ∧ rec.ontType = NA ∧ rec.distance = NA ∧
      rec.pow = NA ∧ rec.description = NA) ∧
    (∀ t, o = some t → rec.sn = t.sn ∧ rec.ontType = t.ontType ∧
      rec.distance = t.distance ∧ rec.pow = t.pow ∧ rec.description = t.description) := by
  unfold buildRecord at h
  split at h
  · rename_i ud ut dd dt hu hd
    simp only [Option.some.injEq] at h
    subst h
    refine ⟨rfl, rfl, rfl, rfl, rfl, by rw [hu], by rw [hd], rfl, ?_, ?_⟩
    · intro ho
      subst ho
      exact ⟨rfl, rfl, rfl, rfl, rfl⟩
    · intro t ho
      subst ho
      exact ⟨rfl, rfl, rfl, rfl, rfl⟩
  · simp at h

theorem flushRecords_isSome (oltName popName port : Str) (t2 : List (Str × T2Row))
    (t1 : List (Str × T1Row))
    (hinv : ∀ kv ∈ t1, (splitTS kv.2.upDateTime).isSome ∧ (splitTS kv.2.downDateTime).isSome) :
    (flushRecords oltName popName port t2 t1).isSome := by
  induction t1 with
  | nil => simp [flushRecords]
  | cons hd tl ih =>
    obtain ⟨k, r⟩ := hd
    have hr := hinv (k, r) (List.mem_cons_self _ _)
    have hb := buildRecord_isSome oltName popName port k r (dget k t2) hr.1 hr.2
    obtain ⟨rec, hrec⟩ := Option.isSome_iff_exists.1 hb
    have ht := ih (fun kv hkv => hinv kv (List.mem_cons_of_mem _ hkv))
    obtain ⟨recs, hrecs⟩ := Option.isSome_iff_exists.1 ht
    simp [flushRecords, hrec, hrecs]

theorem flushRecords_length (oltName popName port : Str) (t2 : List (Str × T2Row)) :
    ∀ (t1 : List (Str × T1Row)) (recs : List Record),
      flushRecords oltName popName port t2 t1 = some recs → recs.length = t1.length := by
  intro t1
  induction t1 with
  | nil =>
    intro recs h
    simp only [flushRecords, Option.some.injEq] at h
    subst h
    rfl
  | cons hd tl ih =>
    intro recs h
    obtain ⟨k, r⟩ := hd
    unfold flushRecords at h
    split at h
    · rename_i rec recs' hb hf
      simp only [Option.some.injEq] at h
      subst h
      simp [ih recs' hf]
    · simp at h

theorem flushRecords_get (oltName popName port : Str) (t2 : List (Str × T2Row)) :
    ∀ (t1 : List (Str × T1Row)) (recs : List Record),
      flushRecords oltName popName port t2 t1 = some recs →
      ∀ (i : Nat) (h1 : i < t1.length) (h2 : i < recs.length),
        buildRecord oltName popName port (t1.get ⟨i, h1⟩).1 (t1.get ⟨i, h1⟩).2
          (dget (t1.get ⟨i, h1⟩).1 t2) = some (recs.get ⟨i, h2⟩) := by
  intro t1
  induction t1 with
  | nil =>
    intro recs h i h1 h2
    simp at h1
  | cons hd tl ih =>
    intro recs h i h1 h2
    obtain ⟨k, r⟩ := hd
    unfold flushRecords at h
    split at h
    · rename_i rec recs' hb hf
      simp only [Option.some.injEq] at h
      subst h
      match i with
      | 0 => simpa using hb
      | j + 1 =>
        simp only [List.get_cons_succ]
        exact ih recs' hf j (Nat.lt_of_succ_lt_succ h1) (Nat.lt_of_succ_lt_succ h2)
    · simp at h

theorem flushRecords_dinsert_extra (oltName popName port : Str) (k : Str) (v : T2Row)
    (t2 : List (Str × T2Row)) :
    ∀ (t1 : List (Str × T1Row)), dget k t1 = none →
      flushRecords oltName popName port (dinsert k v t2) t1 =
        flushRecords oltName popName port t2 t1 := by
  intro t1
  induction t1 with
  | nil => intro _; rfl
  | cons hd tl ih =>
    intro h
    obtain ⟨k0, r0⟩ := hd
    rw [dget] at h
    by_cases h0 : k0 = k
    · rw [if_pos h0] at h
      exact absurd h (by simp)
    · rw [if_neg h0] at h
      unfold flushRecords
      rw [dget_dinsert_ne k k0 v t2 h0, ih h]

theorem step_eq_port (oltName popName : Str) (st : PState) (raw : Str) (pid : Str)
    (h : portSearch (strip raw) = some pid) :
    step oltName popName st raw =
      match st.currentPort with
      | some port =>
        match flushRecords oltName popName port st.t2 st.t1 with
        | some recs => some ⟨st.allOnt ++ recs, some pid, none, [], []⟩
        | none => none
      | none => some ⟨st.allOnt, some pid, none, [], []⟩ := by
  cases hs : strip raw with
  | nil => rw [hs] at h; simp [portSearch] at h
  | cons c cs =>
    rw [hs] at h
    simp only [step, hs, h, List.isEmpty_cons, Bool.false_eq_true, if_false]

theorem step_eq_header1 (oltName popName : Str) (st : PState) (raw : Str) (p : Str)
    (hp : portSearch (strip raw) = none) (hcp : st.currentPort = some p)
    (h1 : t1HeaderSearch (strip raw) = true) :
    step oltName popName st raw = some { st with parsingState := some TState.table1 } := by
  cases hs : strip raw with
  | nil => rw [hs] at h1; simp [t1HeaderSearch] at h1
  | cons c cs =>
    rw [hs] at hp h1
    simp only [step, hs, hp, hcp, h1, List.isEmpty_cons, Bool.false_eq_true, if_false, if_true]

theorem step_eq_header2 (oltName popName : Str) (st : PState) (raw : Str) (p : Str)
    (hp : portSearch (strip raw) = none) (hcp : st.currentPort = some p)
    (h1 : t1HeaderSearch (strip raw) = false) (h2 : t2HeaderSearch (strip raw) = true) :
    step oltName popName st raw = some { st with parsingState := some TState.table2 } := by
  cases hs : strip raw with
  | nil => rw [hs] at h2; simp [t2HeaderSearch] at h2
  | cons c cs =>
    rw [hs] at hp h1 h2
    simp only [step, hs, hp, hcp, h1, h2, List.isEmpty_cons, Bool.false_eq_true, if_false, if_true]

theorem step_eq_data1 (oltName popName : Str) (st : PState) (raw : Str) (p : Str) (m : T1M)
    (hp : portSearch (strip raw) = none) (hcp : st.currentPort = some p)
    (h1 : t1HeaderSearch (strip raw) = false) (h2 : t2HeaderSearch (strip raw) = false)
    (hsep : isSep (strip raw) = false) (hps : st.parsingState = some TState.table1)
    (htm : table1Match (strip raw) = some m) :
    step oltName popName st raw =
      some { st with t1 := dinsert m.ontId ⟨m.runState, m.upDT, m.downDT, m.cause⟩ st.t1 } := by
  cases hs : strip raw with
  | nil =>
    rw [hs] at htm
    have h0 : table1Match ([] : Str) = none := rfl
    rw [h0] at htm
    exact absurd htm (by simp)
  | cons c cs =>
    rw [hs] at hp h1 h2 hsep htm
    simp only [step, hs, hp, hcp, h1, h2, hsep, hps, htm, List.isEmpty_cons,
      Bool.false_eq_true, if_false]

theorem step_eq_data2 (oltName popName : Str) (st : PState) (raw : Str) (p : Str) (m : T2M)
    (hp : portSearch (strip raw) = none) (hcp : st.currentPort = some p)
    (h1 : t1HeaderSearch (strip raw) = false) (h2 : t2HeaderSearch (strip raw) = false)
    (hsep : isSep (strip raw) = false) (hps : st.parsingState = some TState.table2)
    (htm : table2Match (strip raw) = some m) :
    step oltName popName st raw =
      some { st with
        t2 := dinsert m.ontId ⟨m.sn, remapType m.ontType, m.dist, m.pow, strip m.descr⟩ st.t2 } := by
  cases hs : strip raw with
  | nil =>
    rw [hs] at htm
    have h0 : table2Match ([] : Str) = none := rfl
    rw [h0] at htm
    exact absurd htm (by simp)
  | cons c cs =>
    rw [hs] at hp h1 h2 hsep htm
    simp only [step, hs, hp, hcp, h1, h2, hsep, hps, htm, List.isEmpty_cons,
      Bool.false_eq_true, if_false]

theorem step_eq_skip (oltName popName : Str) (st : PState) (raw : Str)
    (hp : portSearch (strip raw) = none)
    (h1 : t1HeaderSearch (strip raw) = false) (h2 : t2HeaderSearch (strip raw) = false)
    (htm1 : table1Match (strip raw) = none) (htm2 : table2Match (strip raw) = none) :
    step oltName popName st raw = some st := by
  by_cases hem : (strip raw).isEmpty
  · simp [step, hem]
  · simp only [step, hp, h1, h2, Bool.false_eq_true, if_false]
    rw [if_neg hem]
    cases st.currentPort with
    | none => rfl
    | some p =>
      by_cases hsep : isSep (strip raw)
      · simp [hsep]
      · simp only [hsep, Bool.false_eq_true, if_false]
        cases hps : st.parsingState with
        | none => rfl
        | some ts => cases ts <;> simp [htm1, htm2]

theorem step_allOnt (oltName popName : Str) (st : PState) (raw : Str) (st' : PState)
    (h : step oltName popName st raw = some st') :
    ∃ new, st'.allOnt = st.allOnt ++ new := by
  simp only [step] at h
  split at h
  · obtain rfl := Option.some.inj h
    exact ⟨[], by simp⟩
  · split at h
    · split at h
      · split at h
        · obtain rfl := Option.some.inj h
          exact ⟨_, rfl⟩
        · simp at h
      · obtain rfl := Option.some.inj h
        exact ⟨[], by simp⟩
    · split at h
      · obtain rfl := Option.some.inj h
        exact ⟨[], by simp⟩
      · split at h
        · obtain rfl := Option.some.inj h
          exact ⟨[], by simp⟩
        · split at h
          · obtain rfl := Option.some.inj h
            exact ⟨[], by simp⟩
          · split at h
            · obtain rfl := Option.some.inj h
              exact ⟨[], by simp⟩
            · split at h
              · split at h
                · obtain rfl := Option.some.inj h
                  exact ⟨[], by simp⟩
                · obtain rfl := Option.some.inj h
                  exact ⟨[], by simp⟩
              · split at h
                · obtain rfl := Option.some.inj h
                  exact ⟨[], by simp⟩
                · obtain rfl := Option.some.inj h
                  exact ⟨[], by simp⟩
              · obtain rfl := Option.some.inj h
                exact ⟨[], by simp⟩

theorem step_isSome (oltName popName : Str) (st : PState) (raw : Str)
    (hst : InvS st) : (step oltName popName st raw).isSome := by
  simp only [step]
  split
  · simp
  · split
    · split
      · split
        · simp
        · rename_i port hcp fscr hflush
          have hsm := flushRecords_isSome oltName popName port st.t2 st.t1 hst
          rw [hflush] at hsm
          simp at hsm
      · simp
    · split
      · simp
      · split
        · simp
        · split
          · simp
          · split
            · simp
            · split
              · split <;> simp
              · split <;> simp
              · simp

theorem step_pres_inv (oltName popName : Str) (st : PState) (raw : Str) (st' : PState)
    (h : step oltName popName st raw = some st') (hst : InvS st) : InvS st' := by
  simp only [step] at h
  split at h
  · obtain rfl := Option.some.inj h
    exact hst
  · split at h
    · split at h
      · split at h
        · obtain rfl := Option.some.inj h
          intro kv hkv
          simp at hkv
        · simp at h
      · obtain rfl := Option.some.inj h
        intro kv hkv
        simp at hkv
    · split at h
      · obtain rfl := Option.some.inj h
        exact hst
      · split at h
        · obtain rfl := Option.some.inj h
          intro kv hkv
          exact hst kv hkv
        · split at h
          · obtain rfl := Option.some.inj h
            intro kv hkv
            exact hst kv hkv
          · split at h
            · obtain rfl := Option.some.inj h
              exact hst
            · split at h
              · split at h
                · rename_i m htm
                  obtain rfl := Option.some.inj h
                  intro kv hkv
                  rcases mem_dinsert _ _ _ _ hkv with hkv | hkv
                  · subst hkv
                    exact table1Match_splits _ m htm
                  · exact hst kv hkv
                · obtain rfl := Option.some.inj h
                  exact hst
              · split at h
                · obtain rfl := Option.some.inj h
                  intro kv hkv
                  exact hst kv hkv
                · obtain rfl := Option.some.inj h
                  exact hst
              · obtain rfl := Option.some.inj h
                exact hst

theorem runLines_inv (oltName popName : Str) :
    ∀ (lines : List Str) (st : PState), InvS st →
      ∃ st', runLines oltName popName st lines = some st' ∧ InvS st' := by
  intro lines
  induction lines with
  | nil => intro st hst; exact ⟨st, rfl, hst⟩
  | cons l rest ih =>
    intro st hst
    have hs := step_isSome oltName popName st l hst
    obtain ⟨st1, hst1⟩ := Option.isSome_iff_exists.1 hs
    have hinv1 := step_pres_inv oltName popName st l st1 hst1 hst
    obtain ⟨st', hrun, hinv'⟩ := ih st1 hinv1
    exact ⟨st', by simp [runLines, hst1, hrun], hinv'⟩

/-! ## The claims -/

/-- Claim C2: on the concrete five-line report (port header, Table-1
    header, Table-1 data row, Table-2 header, Table-2 data row), parse
    returns exactly one output record with device id 1, run state
    `online`, up-date `2023-01-01`, up-time `10:00:00`, down-date `-`,
    down-time `-`, type `GP1702-4G` (remapped from `1112`), distance
    `120`, and description `Customer A`.  The source id is `OLT1`. -/
theorem claim_C2 :
    parse_olt_output
      ("In port 0/1/0, the total of ONTs are: 1, online: 1\nONT  Run     Last                Last                Last\n1 online 2023-01-01 10:00:00 - -\nONT  SN                Type  Distance  Rx/Tx power  Description\n1 ABCDEF0123456789 1112 120 -25.3/2.1 Customer A".data)
      ("OLT1".data) =
    some [{ oltName := "OLT1".data,
            ponPort := "0/1/0".data,
            ontId := 1,
            runState := "online".data,
            lastUpDate := "2023-01-01".data,
            lastUpTime := "10:00:00".data,
            lastDownDate := "-".data,
            lastDownTime := "-".data,
            lastDownCause := "-".data,
            sn := "ABCDEF0123456789".data,
            ontType := "GP1702-4G".data,
            distance := "120".data,
            pow := "-25.3/2.1".data,
            description := "Customer A".data,
            pop := "Unknown PoP".data }] := by
  rfl

/-- Claim C6: the hardware-type remap is an exact-match substitution on
    the whole type token: `1112` becomes `GP1702-4G`, `1108` becomes
    `GP1702-4G-M`, and every other token (e.g. `5806G`) is unchanged. -/
theorem claim_C6 :
    remapType ("1112".data) = "GP1702-4G".data ∧
    remapType ("1108".data) = "GP1702-4G-M".data ∧
    remapType ("5806G".data) = "5806G".data ∧
    ∀ t : Str, t ≠ "1112".data → t ≠ "1108".data → remapType t = t := by
  refine ⟨rfl, rfl, rfl, ?_⟩
  intro t h1 h2
  simp [remapType, h1, h2]

/-- Witness for C6 at the concrete token `GPON99`. -/
theorem claim_C6_witness :
    remapType ("GPON99".data) = "GPON99".data :=
  claim_C6.2.2.2 ("GPON99".data) (by decide) (by decide)

/-- Claim C4: the site-group (PoP) label derivation, exactly the branch
    cascade of the source: split the source id on hyphens; fewer than 3
    segments gives the unknown marker (the string `Unknown PoP`);
    otherwise a last segment whose upper-casing ends with `NOC1` is
    returned verbatim; otherwise a last segment of length at least 5 is
    returned; otherwise with at least 4 segments the result is
    second-to-last, hyphen, last; otherwise the unknown marker.  Including
    the three concrete examples from the spec. -/
theorem claim_C4 :
    (∀ olt : Str, (pySplit '-' olt).length < 3 → derivePop olt = UnknownPoP) ∧
    (∀ olt : Str, 3 ≤ (pySplit '-' olt).length →
      NOC1.isSuffixOf (pyUpper ((pySplit '-' olt).getLastD [])) = true →
      derivePop olt = (pySplit '-' olt).getLastD []) ∧
    (∀ olt : Str, 3 ≤ (pySplit '-' olt).length →
      NOC1.isSuffixOf (pyUpper ((pySplit '-' olt).getLastD [])) = false →
      5 ≤ ((pySplit '-' olt).getLastD []).length →
      derivePop olt = (pySplit '-' olt).getLastD []) ∧
    (∀ olt : Str, 4 ≤ (pySplit '-' olt).length →
      NOC1.isSuffixOf (pyUpper ((pySplit '-' olt).getLastD [])) = false →
      ((pySplit '-' olt).getLastD []).length < 5 →
      derivePop olt = ((pySplit '-' olt).dropLast.getLastD []) ++ '-' :: ((pySplit '-' olt).getLastD [])) ∧
    (∀ olt : Str, (pySplit '-' olt).length = 3 →
      NOC1.isSuffixOf (pyUpper ((pySplit '-' olt).getLastD [])) = false →
      ((pySplit '-' olt).getLastD []).length < 5 →
      derivePop olt = UnknownPoP) ∧
    derivePop ("HWGPON2U-01-PNHHQ".data) = "PNHHQ".data ∧
    derivePop ("SITE-A-SHVNOC1".data) = "SHVNOC1".data ∧
    derivePop ("ab".data) = UnknownPoP := by
  refine ⟨?_, ?_, ?_, ?_, ?_, rfl, rfl, rfl⟩
  · intro olt h
    simp only [derivePop]
    rw [if_neg (by omega)]
  · intro olt h3 hnoc
    simp only [derivePop]
    rw [if_pos h3, if_pos hnoc]
  · intro olt h3 hnoc h5
    simp only [derivePop]
    rw [if_pos h3, if_neg (by
      intro hcon
      rw [hnoc] at hcon
      exact Bool.noConfusion hcon), if_pos h5]
  · intro olt h4 hnoc h5
    simp only [derivePop]
    rw [if_pos (by omega), if_neg (by
      intro hcon
      rw [hnoc] at hcon
      exact Bool.noConfusion hcon),
      if_neg (by omega), if_pos h4]
  · intro olt h3 hnoc h5
    simp only [derivePop]
    rw [if_pos (by omega), if_neg (by
      intro hcon
      rw [hnoc] at hcon
      exact Bool.noConfusion hcon),
      if_neg (by omega), if_neg (by omega)]

/-- Witness for C4: its universal branch statements applied at concrete
    source ids. -/
theorem claim_C4_witness :
    derivePop ("x".data) = UnknownPoP ∧
    derivePop ("a-b-cd-ef".data) = "cd".data ++ '-' :: "ef".data ∧
    derivePop ("a-b-cd".data) = UnknownPoP :=
  ⟨claim_C4.1 ("x".data) (by decide),
   claim_C4.2.2.2.1 ("a-b-cd-ef".data) (by decide) (by decide) (by decide),
   claim_C4.2.2.2.2.1 ("a-b-cd".data) (by decide) (by decide) (by decide)⟩

/-- Claim C7: at flush each stored timestamp is split independently on
    its first whitespace run: `2023-08-15 09:30:00` gives date
    `2023-08-15` and time `09:30:00`; the literal `-` gives `-`/`-`; and
    in every record built by the flush, the up and down halves are each
    obtained from their own stored value alone. -/
theorem claim_C7 :
    splitTS ("2023-08-15 09:30:00".data) = some ("2023-08-15".data, "09:30:00".data) ∧
    splitTS ("-".data) = some ("-".data, "-".data) ∧
    (∀ (oltName popName port k : Str) (r : T1Row) (o : Option T2Row) (rec : Record),
      buildRecord oltName popName port k r o = some rec →
      splitTS r.upDateTime = some (rec.lastUpDate, rec.lastUpTime) ∧
      splitTS r.downDateTime = some (rec.lastDownDate, rec.lastDownTime)) := by
  refine ⟨by rfl, by rfl, ?_⟩
  intro oltName popName port k r o rec h
  have hs := buildRecord_spec oltName popName port k r o rec h
  exact ⟨hs.2.2.2.2.2.1, hs.2.2.2.2.2.2.1⟩

/-- Witness for C7: the split-independence clause applied to a concrete
    record built with a dated up-timestamp and an absent down-timestamp. -/
theorem claim_C7_witness :
    splitTS ("2023-08-15 09:30:00".data) = some ("2023-08-15".data, "09:30:00".data) ∧
    splitTS ("-".data) = some ("-".data, "-".data) := by
  have h := claim_C7.2.2 ("O".data) ("P".data) ("0/1/0".data) ("7".data)
    ⟨"online".data, "2023-08-15 09:30:00".data, "-".data, "-".data⟩ none
    { oltName := "O".data, ponPort := "0/1/0".data, ontId := 7,
      runState := "online".data,
      lastUpDate := "2023-08-15".data, lastUpTime := "09:30:00".data,
      lastDownDate := "-".data, lastDownTime := "-".data,
      lastDownCause := "-".data, sn := NA, ontType := NA, distance := NA,
      pow := NA, description := NA, pop := "P".data } (by rfl)
  exact h

/-- Claim C9: the Table-1/Table-2 join and the overwrite are keyed on the
    device id's decimal string exactly as written, not its numeric value.
    First report: a Table-1 row with id `01` does not join the Table-2 row
    with id `1` (all Table-2 fields fall back to `N/A`).  Second report:
    Table-1 rows `1` and `01` in one port produce two distinct records,
    both with integer ONT ID 1. -/
theorem claim_C9 :
    parse_olt_output
      ("In port 0/1/0, the total of ONTs are: 2, online: 1\nONT Run Last Last Last\n01 online - - -\nONT SN Type Distance Rx/Tx power Description\n1 ABCDEF0123456789 5806G 10 -1/2 Cust".data)
      ("OLT1".data) =
    some [{ oltName := "OLT1".data, ponPort := "0/1/0".data, ontId := 1,
            runState := "online".data,
            lastUpDate := "-".data, lastUpTime := "-".data,
            lastDownDate := "-".data, lastDownTime := "-".data,
            lastDownCause := "-".data,
            sn := NA, ontType := NA, distance := NA, pow := NA,
            description := NA, pop := "Unknown PoP".data }] ∧
    parse_olt_output
      ("In port 0/1/0, the total of ONTs are: 2, online: 1\nONT Run Last Last Last\n1 online - - -\n01 offline - - -".data)
      ("OLT1".data) =
    some [{ oltName := "OLT1".data, ponPort := "0/1/0".data, ontId := 1,
            runState := "online".data,
            lastUpDate := "-".data, lastUpTime := "-".data,
            lastDownDate := "-".data, lastDownTime := "-".data,
            lastDownCause := "-".data,
            sn := NA, ontType := NA, distance := NA, pow := NA,
            description := NA, pop := "Unknown PoP".data },
          { oltName := "OLT1".data, ponPort := "0/1/0".data, ontId := 1,
            runState := "offline".data,
            lastUpDate := "-".data, lastUpTime := "-".data,
            lastDownDate := "-".data, lastDownTime := "-".data,
            lastDownCause := "-".data,
            sn := NA, ontType := NA, distance := NA, pow := NA,
            description := NA, pop := "Unknown PoP".data }] := by
  exact ⟨rfl, rfl⟩

/-- Claim C1: the flush emits exactly one record per Table-1 accumulator
    entry; a record whose device id has no Table-2 entry carries the
    `N/A` sentinel (the realisation of the spec's "not available") in
    all Table-2-sourced fields while the Table-1-sourced fields (run
    state, split timestamps, down-cause) come from the Table-1 row; and
    inserting a Table-2 entry whose device id is absent from the Table-1
    accumulator leaves the emitted records unchanged.  Every record
    `parse_olt_output` emits is produced by `flushRecords`. -/
theorem claim_C1 :
    (∀ (oltName popName port : Str) (t2 : List (Str × T2Row)) (t1 : List (Str × T1Row))
       (recs : List Record), flushRecords oltName popName port t2 t1 = some recs →
       recs.length = t1.length ∧
       ∀ (i : Nat) (h1 : i < t1.length) (h2 : i < recs.length),
         ((recs.get ⟨i, h2⟩).runState = (t1.get ⟨i, h1⟩).2.runState ∧
          (recs.get ⟨i, h2⟩).lastDownCause = (t1.get ⟨i, h1⟩).2.downCause ∧
          splitTS (t1.get ⟨i, h1⟩).2.upDateTime =
            some ((recs.get ⟨i, h2⟩).lastUpDate, (recs.get ⟨i, h2⟩).lastUpTime) ∧
          splitTS (t1.get ⟨i, h1⟩).2.downDateTime =
            some ((recs.get ⟨i, h2⟩).lastDownDate, (recs.get ⟨i, h2⟩).lastDownTime)) ∧
         (dget (t1.get ⟨i, h1⟩).1 t2 = none →
           (recs.get ⟨i, h2⟩).sn = NA ∧ (recs.get ⟨i, h2⟩).ontType = NA ∧
           (recs.get ⟨i, h2⟩).distance = NA ∧ (recs.get ⟨i, h2⟩).pow = NA ∧
           (recs.get ⟨i, h2⟩).description = NA)) ∧
    (∀ (oltName popName port k : Str) (v : T2Row) (t2 : List (Str × T2Row))
       (t1 : List (Str × T1Row)), dget k t1 = none →
       flushRecords oltName popName port (dinsert k v t2) t1 =
         flushRecords oltName popName port t2 t1) := by
  constructor
  · intro oltName popName port t2 t1 recs hf
    refine ⟨flushRecords_length oltName popName port t2 t1 recs hf, ?_⟩
    intro i h1 h2
    have hb := flushRecords_get oltName popName port t2 t1 recs hf i h1 h2
    have hs := buildRecord_spec _ _ _ _ _ _ _ hb
    refine ⟨⟨hs.2.2.2.1, hs.2.2.2.2.1, hs.2.2.2.2.2.1, hs.2.2.2.2.2.2.1⟩, ?_⟩
    intro hnone
    rw [hnone] at hb
    have hs2 := buildRecord_spec _ _ _ _ _ _ _ hb
    exact hs2.2.2.2.2.2.2.2.2.1 rfl
  · intro oltName popName port k v t2 t1 h
    exact flushRecords_dinsert_extra oltName popName port k v t2 t1 h

/-- Witness for C1: a one-entry Table-1 accumulator with an empty Table-2
    accumulator, plus an extra Table-2-only insertion that changes
    nothing. -/
theorem claim_C1_witness :
    ([({ oltName := "O".data, ponPort := "0/1/0".data, ontId := 1,
         runState := "online".data,
         lastUpDate := "-".data, lastUpTime := "-".data,
         lastDownDate := "-".data, lastDownTime := "-".data,
         lastDownCause := "-".data, sn := NA, ontType := NA,
         distance := NA, pow := NA, description := NA,
         pop := "P".data } : Record)].length
        = [(("1".data), (⟨"online".data, "-".data, "-".data, "-".data⟩ : T1Row))].length) ∧
    flushRecords ("O".data) ("P".data) ("0/1/0".data)
        (dinsert ("2".data) (⟨[], [], [], [], []⟩ : T2Row) [])
        [(("1".data), (⟨"online".data, "-".data, "-".data, "-".data⟩ : T1Row))] =
      flushRecords ("O".data) ("P".data) ("0/1/0".data) []
        [(("1".data), (⟨"online".data, "-".data, "-".data, "-".data⟩ : T1Row))] :=
  ⟨(claim_C1.1 ("O".data) ("P".data) ("0/1/0".data) []
      [(("1".data), (⟨"online".data, "-".data, "-".data, "-".data⟩ : T1Row))] _ (by rfl)).1,
   claim_C1.2 ("O".data) ("P".data) ("0/1/0".data) ("2".data) ⟨[], [], [], [], []⟩ []
      [(("1".data), (⟨"online".data, "-".data, "-".data, "-".data⟩ : T1Row))] (by rfl)⟩

/-- Claim C8: output order is appearance order.  The i-th record of a
    flush is built from the i-th Table-1 accumulator entry; a step only
    ever appends to the record list (so earlier port sections precede
    later ones); re-inserting an existing device id keeps its position
    and replaces its value (last occurrence wins at the first
    occurrence's position); a new id goes to the end. -/
theorem claim_C8 :
    (∀ (oltName popName port : Str) (t2 : List (Str × T2Row)) (t1 : List (Str × T1Row))
       (recs : List Record), flushRecords oltName popName port t2 t1 = some recs →
       recs.length = t1.length ∧
       ∀ (i : Nat) (h1 : i < t1.length) (h2 : i < recs.length),
         buildRecord oltName popName port (t1.get ⟨i, h1⟩).1 (t1.get ⟨i, h1⟩).2
           (dget (t1.get ⟨i, h1⟩).1 t2) = some (recs.get ⟨i, h2⟩)) ∧
    (∀ (oltName popName : Str) (st : PState) (raw : Str) (st' : PState),
       step oltName popName st raw = some st' →
       ∃ new, st'.allOnt = st.allOnt ++ new) ∧
    (∀ (k : Str) (v : T1Row) (t : List (Str × T1Row)), (dget k t).isSome →
       (dinsert k v t).map Prod.fst = t.map Prod.fst ∧ dget k (dinsert k v t) = some v) ∧
    (∀ (k : Str) (v : T1Row) (t : List (Str × T1Row)), dget k t = none →
       dinsert k v t = t ++ [(k, v)]) := by
  refine ⟨?_, step_allOnt, ?_, dinsert_of_dget_none⟩
  · intro oltName popName port t2 t1 recs hf
    exact ⟨flushRecords_length oltName popName port t2 t1 recs hf,
      flushRecords_get oltName popName port t2 t1 recs hf⟩
  · intro k v t h
    exact ⟨keys_dinsert_of_isSome k v t h, dget_dinsert_self k v t⟩

/-- Witness for C8 at concrete accumulators and a concrete step. -/
theorem claim_C8_witness :
    ((dinsert ("1".data) (⟨"offline".data, "-".data, "-".data, "-".data⟩ : T1Row)
        [(("1".data), (⟨"online".data, "-".data, "-".data, "-".data⟩ : T1Row))]).map Prod.fst
      = [(("1".data), (⟨"online".data, "-".data, "-".data, "-".data⟩ : T1Row))].map Prod.fst ∧
     dget ("1".data) (dinsert ("1".data) (⟨"offline".data, "-".data, "-".data, "-".data⟩ : T1Row)
        [(("1".data), (⟨"online".data, "-".data, "-".data, "-".data⟩ : T1Row))])
      = some ⟨"offline".data, "-".data, "-".data, "-".data⟩) ∧
    dinsert ("2".data) (⟨"online".data, "-".data, "-".data, "-".data⟩ : T1Row)
        [(("1".data), (⟨"online".data, "-".data, "-".data, "-".data⟩ : T1Row))]
      = [(("1".data), (⟨"online".data, "-".data, "-".data, "-".data⟩ : T1Row)),
         (("2".data), (⟨"online".data, "-".data, "-".data, "-".data⟩ : T1Row))] ∧
    ∃ new, (initState.allOnt : List Record) = initState.allOnt ++ new :=
  ⟨claim_C8.2.2.1 ("1".data) ⟨"offline".data, "-".data, "-".data, "-".data⟩
      [(("1".data), (⟨"online".data, "-".data, "-".data, "-".data⟩ : T1Row))] (by decide),
   claim_C8.2.2.2 ("2".data) ⟨"online".data, "-".data, "-".data, "-".data⟩
      [(("1".data), (⟨"online".data, "-".data, "-".data, "-".data⟩ : T1Row))] (by decide),
   claim_C8.2.1 ("O".data) ("P".data) initState ("garbage".data) initState (by rfl)⟩

/-- Claim C10: a Table-1 or Table-2 header line merely switches the
    parsing state and clears neither accumulator; only a port-header
    line resets them.  A concrete report whose port section contains two
    separate Table-1 blocks accumulates both data rows into one flush. -/
theorem claim_C10 :
    (∀ (oltName popName : Str) (st : PState) (raw : Str) (p : Str),
      portSearch (strip raw) = none → st.currentPort = some p →
      t1HeaderSearch (strip raw) = true →
      step oltName popName st raw = some { st with parsingState := some TState.table1 }) ∧
    (∀ (oltName popName : Str) (st : PState) (raw : Str) (p : Str),
      portSearch (strip raw) = none → st.currentPort = some p →
      t1HeaderSearch (strip raw) = false → t2HeaderSearch (strip raw) = true →
      step oltName popName st raw = some { st with parsingState := some TState.table2 }) ∧
    (∀ (oltName popName : Str) (st : PState) (raw : Str) (pid : Str) (st' : PState),
      portSearch (strip raw) = some pid → step oltName popName st raw = some st' →
      st'.t1 = [] ∧ st'.t2 = [] ∧ st'.currentPort = some pid ∧ st'.parsingState = none) ∧
    parse_olt_output
      ("In port 0/1/0, the total of ONTs are: 2, online: 2\nONT Run Last Last Last\n1 online - - -\nONT Run Last Last Last\n2 offline - - -".data)
      ("OLT1".data) =
    some [{ oltName := "OLT1".data, ponPort := "0/1/0".data, ontId := 1,
            runState := "online".data,
            lastUpDate := "-".data, lastUpTime := "-".data,
            lastDownDate := "-".data, lastDownTime := "-".data,
            lastDownCause := "-".data, sn := NA, ontType := NA, distance := NA,
            pow := NA, description := NA, pop := "Unknown PoP".data },
          { oltName := "OLT1".data, ponPort := "0/1/0".data, ontId := 2,
            runState := "offline".data,
            lastUpDate := "-".data, lastUpTime := "-".data,
            lastDownDate := "-".data, lastDownTime := "-".data,
            lastDownCause := "-".data, sn := NA, ontType := NA, distance := NA,
            pow := NA, description := NA, pop := "Unknown PoP".data }] := by
  refine ⟨step_eq_header1, step_eq_header2, ?_, by rfl⟩
  intro oltName popName st raw pid st' hp hstep
  rw [step_eq_port oltName popName st raw pid hp] at hstep
  split at hstep
  · split at hstep
    · obtain rfl := Option.some.inj hstep
      exact ⟨rfl, rfl, rfl, rfl⟩
    · simp at hstep
  · obtain rfl := Option.some.inj hstep
    exact ⟨rfl, rfl, rfl, rfl⟩

/-- Witness for C10: header and port-header steps from a populated
    state. -/
theorem claim_C10_witness :
    step ("O".data) ("P".data)
      ⟨[], some ("0/1/0".data), some TState.table2,
       [(("1".data), (⟨"online".data, "-".data, "-".data, "-".data⟩ : T1Row))],
       [(("1".data), (⟨NA, NA, NA, NA, NA⟩ : T2Row))]⟩
      ("ONT Run Last Last Last".data) =
    some ⟨[], some ("0/1/0".data), some TState.table1,
       [(("1".data), (⟨"online".data, "-".data, "-".data, "-".data⟩ : T1Row))],
       [(("1".data), (⟨NA, NA, NA, NA, NA⟩ : T2Row))]⟩ ∧
    step ("O".data) ("P".data)
      ⟨[], some ("0/1/0".data), some TState.table1,
       [(("1".data), (⟨"online".data, "-".data, "-".data, "-".data⟩ : T1Row))], []⟩
      ("ONT SN Type Distance Rx/Tx power Description".data) =
    some ⟨[], some ("0/1/0".data), some TState.table2,
       [(("1".data), (⟨"online".data, "-".data, "-".data, "-".data⟩ : T1Row))], []⟩ :=
  ⟨claim_C10.1 ("O".data) ("P".data) _ ("ONT Run Last Last Last".data) ("0/1/0".data)
      (by rfl) (by rfl) (by rfl),
   claim_C10.2.1 ("O".data) ("P".data) _ ("ONT SN Type Distance Rx/Tx power Description".data)
      ("0/1/0".data) (by rfl) (by rfl) (by rfl) (by rfl)⟩

/-- Claim C5: parse is total — for every input text and source id it
    returns a result (the `none` branch modelling a Python exception is
    never taken; in particular every timestamp stored in the Table-1
    accumulator splits into exactly two parts at flush time), and a line
    on which no classification rule and no data grammar fires leaves the
    state unchanged, contributing nothing. -/
theorem claim_C5 :
    (∀ (text oltName : Str), (parse_olt_output text oltName).isSome) ∧
    (∀ (oltName popName : Str) (st : PState) (raw : Str),
      portSearch (strip raw) = none → t1HeaderSearch (strip raw) = false →
      t2HeaderSearch (strip raw) = false → table1Match (strip raw) = none →
      table2Match (strip raw) = none → step oltName popName st raw = some st) := by
  refine ⟨?_, step_eq_skip⟩
  intro text oltName
  simp only [parse_olt_output]
  obtain ⟨st, hrun, hinv⟩ := runLines_inv oltName (derivePop oltName) (splitlines text)
    initState (by intro kv hkv; simp [initState] at hkv)
  rw [hrun]
  cases hcp : st.currentPort with
  | none => simp [hcp]
  | some port =>
    have hs := flushRecords_isSome oltName (derivePop oltName) port st.t2 st.t1 hinv
    obtain ⟨recs, hrecs⟩ := Option.isSome_iff_exists.1 hs
    simp [hcp, hrecs]

/-- Witness for C5: totality on a concrete report, and a skipped
    unclassifiable line. -/
theorem claim_C5_witness :
    (parse_olt_output ("no port header here\njust noise".data) ("OLT1".data)).isSome ∧
    step ("O".data) ("P".data)
      ⟨[], some ("0/1/0".data), some TState.table1, [], []⟩ ("garbage line".data) =
    some ⟨[], some ("0/1/0".data), some TState.table1, [], []⟩ :=
  ⟨claim_C5.1 ("no port header here\njust noise".data) ("OLT1".data),
   claim_C5.2 ("O".data) ("P".data) _ ("garbage line".data)
     (by rfl) (by rfl) (by rfl) (by rfl) (by rfl)⟩

theorem dropWhile_append_self (p : Char → Bool) (xs ys : Str) (hx : xs ≠ [])
    (h : List.dropWhile p xs = xs) : List.dropWhile p (xs ++ ys) = xs ++ ys := by
  match xs, hx with
  | x :: xs', _ =>
    cases hpc : p x with
    | true =>
      exfalso
      rw [List.dropWhile_cons, if_pos hpc] at h
      have h1 := congrArg List.length h
      rw [List.length_cons] at h1
      have h2 := (List.dropWhile_sublist (l := xs') p).length_le
      omega
    | false =>
      rw [List.cons_append, List.dropWhile_cons, if_neg (by simp [hpc])]

/-- Counterexample for C3: in state IN_TABLE_2, a data line whose device
    id, serial number, type, distance and power fields are all
    well-formed but which ends immediately after the power field is NOT
    stored into the Table-2 accumulator — the regex requires at least one
    whitespace character after the power field, and lines are stripped
    before matching.  The state is returned unchanged, and the line does
    not match `TABLE2_DATA_RE` at all. -/
theorem claim_C3_counterexample :
    step ("O".data) ("P".data)
      ⟨[], some ("0/1/0".data), some TState.table2, [], []⟩
      ("1 ABCDEF0123456789 1112 120 -25.3/2.1".data) =
    some ⟨[], some ("0/1/0".data), some TState.table2, [], []⟩ ∧
    table2Match ("1 ABCDEF0123456789 1112 120 -25.3/2.1".data) = none := ⟨rfl, rfl⟩

theorem dropWhile_eq_self_head (p : Char → Bool) (c : Char) (cs : Str)
    (h : List.dropWhile p (c :: cs) = c :: cs) : p c = false := by
  cases hpc : p c with
  | false => rfl
  | true =>
    exfalso
    rw [List.dropWhile_cons, if_pos hpc] at h
    have h1 := congrArg List.length h
    rw [List.length_cons] at h1
    have h2 := (List.dropWhile_sublist (l := cs) p).length_le
    omega

theorem dropWhile_eq_self_of_head (p : Char → Bool) (l : Str)
    (h : ∀ c, l.head? = some c → p c = false) : List.dropWhile p l = l := by
  cases l with
  | nil => rfl
  | cons c cs => rw [List.dropWhile_cons, if_neg (by simp [h c rfl])]

theorem head?_append_ne (a r : Str) (hne : a ≠ []) : (a ++ r).head? = a.head? := by
  cases a with
  | nil => exact absurd rfl hne
  | cons c cs => rfl

theorem head_all (p : Char → Bool) (a : Str) (hall : ∀ c ∈ a, p c = true) :
    ∀ c, a.head? = some c → p c = true := by
  intro c hc
  cases a with
  | nil => simp at hc
  | cons x xs =>
    simp only [List.head?_cons, Option.some.injEq] at hc
    subst hc
    exact hall _ (List.mem_cons_self _ _)

theorem isEmpty_false_of_ne (l : Str) (h : l ≠ []) : l.isEmpty = false := by
  cases l with
  | nil => exact absurd rfl h
  | cons c cs => rfl

theorem isSpace_not_digit (c : Char) (h : isSpace c = true) : isDigit c = false := by
  rcases isSpace_elim c h with rfl | rfl | rfl | rfl | rfl | rfl <;> rfl

theorem isDigit_not_space (c : Char) (h : isDigit c = true) : isSpace c = false :=
  isDC_not_space c (by simp [isDC, h])

theorem isHex_not_space (c : Char) (h : isHex c = true) : isSpace c = false := by
  cases hs : isSpace c with
  | false => rfl
  | true =>
    exfalso
    rcases isSpace_elim c hs with rfl | rfl | rfl | rfl | rfl | rfl <;>
      simp [isHex, isDigit] at h

theorem takeN_exact (p : Char → Bool) :
    ∀ (a r : Str), (∀ c ∈ a, p c = true) → takeN p a.length (a ++ r) = some (a, r) := by
  intro a
  induction a with
  | nil => intro r _; rfl
  | cons c a' ih =>
    intro r hall
    have hc : p c = true := hall c (List.mem_cons_self _ _)
    simp only [List.length_cons, List.cons_append, takeN, hc, if_true, List.append_eq]
    rw [ih r (fun x hx => hall x (List.mem_cons_of_mem _ hx))]

theorem span_exact (p : Char → Bool) (a r : Str) (ha : ∀ c ∈ a, p c = true)
    (hr : List.dropWhile p r = r) : (a ++ r).span p = (a, r) := by
  have htw : List.takeWhile p r = [] := by
    cases hr2 : r with
    | nil => rfl
    | cons c cs =>
      rw [hr2] at hr
      have hpc := dropWhile_eq_self_head p c cs hr
      rw [List.takeWhile_cons, if_neg (by simp [hpc])]
  rw [List.span_eq_take_drop, List.takeWhile_append_of_pos ha,
    List.dropWhile_append_of_pos ha, hr, htw, List.append_nil]

theorem digits1_exact (a r : Str) (hne : a ≠ []) (ha : ∀ c ∈ a, isDigit c = true)
    (hr : List.dropWhile isDigit r = r) : digits1 (a ++ r) = some (a, r) := by
  unfold digits1
  rw [span_exact isDigit a r ha hr]
  simp [isEmpty_false_of_ne a hne]

theorem reqWs_append (w r : Str) (hw : w ≠ []) (hws : ∀ c ∈ w, isSpace c = true)
    (hr : List.dropWhile isSpace r = r) : reqWs (w ++ r) = some r := by
  match w, hw with
  | c :: w', _ =>
    have hc : isSpace c = true := hws c (List.mem_cons_self _ _)
    simp only [List.cons_append, reqWs, hc, if_true]
    rw [List.dropWhile_append_of_pos (fun x hx => hws x (List.mem_cons_of_mem _ hx)), hr]

theorem head_all_false (p : Char → Bool) (a : Str) (hall : ∀ c ∈ a, p c = false) :
    ∀ c, a.head? = some c → p c = false := by
  intro c hc
  cases a with
  | nil => simp at hc
  | cons x xs =>
    simp only [List.head?_cons, Option.some.injEq] at hc
    subst hc
    exact hall _ (List.mem_cons_self _ _)

theorem reqWs_inv (s r : Str) (h : reqWs s = some r) :
    ∃ c tail, s = c :: tail ∧ isSpace c = true ∧ r = List.dropWhile isSpace tail := by
  cases s with
  | nil => simp [reqWs] at h
  | cons c tail =>
    simp only [reqWs] at h
    by_cases hc : isSpace c
    · rw [if_pos hc] at h
      exact ⟨c, tail, rfl, hc, (Option.some.inj h).symm⟩
    · rw [if_neg hc] at h
      simp at h

theorem reqWs_suffix (s r : Str) (h : reqWs s = some r) : r <:+ s := by
  obtain ⟨c, tail, rfl, hc, rfl⟩ := reqWs_inv s r h
  exact (List.dropWhile_suffix isSpace).trans (List.suffix_cons c tail)

theorem digits1_suffix (s d r : Str) (h : digits1 s = some (d, r)) : r <:+ s := by
  unfold digits1 at h
  rw [List.span_eq_take_drop] at h
  dsimp only at h
  split at h
  · simp at h
  · simp only [Option.some.injEq, Prod.mk.injEq] at h
    rw [← h.2]
    exact List.dropWhile_suffix isDigit

theorem span_snd_suffix (p : Char → Bool) (s : Str) : (s.span p).2 <:+ s := by
  rw [List.span_eq_take_drop]
  exact List.dropWhile_suffix p

theorem snField_suffix (s g r : Str) (h : snField s = some (g, r)) : r <:+ s := by
  unfold snField at h
  split at h
  · rename_i h16 r' heq
    simp only [Option.some.injEq, Prod.mk.injEq] at h
    obtain ⟨hg, hr⟩ := h
    obtain ⟨_, _, hsp⟩ := takeN_spec isHex 16 s h16 r' heq
    rw [← hr]
    exact ⟨h16, hsp.symm⟩
  · split at h
    · simp only [Option.some.injEq, Prod.mk.injEq] at h
      obtain ⟨hg, hr⟩ := h
      rw [← hr]
      exact List.tail_suffix s
    · simp at h

theorem distField_suffix (s g r : Str) (h : distField s = some (g, r)) : r <:+ s := by
  unfold distField at h
  split at h
  · rw [List.span_eq_take_drop] at h
    simp only [Option.some.injEq, Prod.mk.injEq] at h
    rw [← h.2]
    exact List.dropWhile_suffix isDigit
  · split at h
    · simp only [Option.some.injEq, Prod.mk.injEq] at h
      obtain ⟨hg, hr⟩ := h
      rw [← hr]
      exact List.tail_suffix s
    · simp at h

theorem dropWhile_idem (p : Char → Bool) (l : Str) :
    List.dropWhile p (List.dropWhile p l) = List.dropWhile p l := by
  induction l with
  | nil => rfl
  | cons c cs ih =>
    rw [List.dropWhile_cons]
    by_cases hc : p c
    · rw [if_pos hc]
      exact ih
    · rw [if_neg hc, List.dropWhile_cons, if_neg hc]

theorem strip_noTrail (raw : Str) :
    List.dropWhile isSpace (strip raw).reverse = (strip raw).reverse := by
  unfold strip
  rw [List.reverse_reverse]
  exact dropWhile_idem isSpace _

theorem noTrail_suffix (L s : Str)
    (hL : List.dropWhile isSpace L.reverse = L.reverse) (hs : s <:+ L) :
    List.dropWhile isSpace s.reverse = s.reverse := by
  obtain ⟨t, rfl⟩ := hs
  rw [List.reverse_append] at hL
  cases hsr : s.reverse with
  | nil => rfl
  | cons c cs =>
    rw [hsr, List.cons_append] at hL
    have hpc := dropWhile_eq_self_head isSpace c (cs ++ t.reverse) hL
    rw [List.dropWhile_cons, if_neg (by simp [hpc])]

theorem dropWhile_ne_nil_noTrail (s : Str) (hs : s ≠ [])
    (h : List.dropWhile isSpace s.reverse = s.reverse) :
    List.dropWhile isSpace s ≠ [] := by
  intro hnil
  have hall : ∀ x ∈ s, isSpace x := List.dropWhile_eq_nil_iff.1 hnil
  cases hsr : s.reverse with
  | nil => exact hs (by simpa using congrArg List.reverse hsr)
  | cons c cs =>
    rw [hsr] at h
    have hpc := dropWhile_eq_self_head isSpace c cs h
    have hcmem : c ∈ s := by
      rw [← List.mem_reverse, hsr]
      exact List.mem_cons_self _ _
    rw [hall c hcmem] at hpc
    exact Bool.noConfusion hpc

theorem strip_ne_nil_noTrail (d : Str) (hne : d ≠ [])
    (hnt : List.dropWhile isSpace d.reverse = d.reverse) : strip d ≠ [] := by
  unfold strip
  have hu_ne : List.dropWhile isSpace d ≠ [] := dropWhile_ne_nil_noTrail d hne hnt
  have hnt_u : List.dropWhile isSpace (List.dropWhile isSpace d).reverse
      = (List.dropWhile isSpace d).reverse :=
    noTrail_suffix d _ hnt (List.dropWhile_suffix isSpace)
  rw [hnt_u]
  simp [hu_ne]

theorem table2Match_reqWs (l : Str) (m : T2M) (h : table2Match l = some m) :
    ∃ s9, s9 <:+ l ∧ reqWs s9 = some m.descr := by
  unfold table2Match at h
  simp only [bind, Option.bind_eq_some] at h
  obtain ⟨⟨g1, s1⟩, h1, h⟩ := h
  obtain ⟨s2, h2, h⟩ := h
  obtain ⟨⟨g3, s3⟩, h3, h⟩ := h
  obtain ⟨s4, h4, h⟩ := h
  have hs4 : s4 <:+ l :=
    ((((reqWs_suffix s3 s4 h4).trans (snField_suffix s2 g3 s3 h3)).trans
      (reqWs_suffix s1 s2 h2)).trans (digits1_suffix _ g1 s1 h1)).trans
      (List.dropWhile_suffix isSpace)
  split at h
  · simp at h
  · simp only [Option.bind_eq_some] at h
    obtain ⟨s6, h6, h⟩ := h
    obtain ⟨⟨g4, s7⟩, h7, h⟩ := h
    obtain ⟨s8, h8, h⟩ := h
    have hs8 : s8 <:+ l :=
      (((reqWs_suffix s7 s8 h8).trans (distField_suffix s6 g4 s7 h7)).trans
        ((reqWs_suffix _ s6 h6).trans (span_snd_suffix _ s4))).trans hs4
    split at h
    · simp at h
    · split at h
      · simp only [Option.bind_eq_some] at h
        obtain ⟨s10, h10, h⟩ := h
        simp only [Option.some.injEq] at h
        subst h
        exact ⟨(s8.span (fun c => !(isSpace c))).2,
          (span_snd_suffix _ s8).trans hs8, h10⟩
      · simp at h

theorem table2Match_strip_descr (raw : Str) (m : T2M)
    (h : table2Match (strip raw) = some m) : m.descr ≠ [] ∧ strip m.descr ≠ [] := by
  obtain ⟨s9, hsuf, hreq⟩ := table2Match_reqWs (strip raw) m h
  obtain ⟨c, tail, rfl, hc, hd⟩ := reqWs_inv s9 m.descr hreq
  have hLnt := strip_noTrail raw
  have htail_ne : tail ≠ [] := by
    rintro rfl
    obtain ⟨t, ht⟩ := hsuf
    rw [← ht] at hLnt
    simp only [List.reverse_append, List.reverse_cons, List.reverse_nil,
      List.nil_append, List.singleton_append] at hLnt
    have hpc := dropWhile_eq_self_head isSpace c t.reverse hLnt
    rw [hc] at hpc
    exact Bool.noConfusion hpc
  have htail_suf2 : tail <:+ strip raw := (List.tail_suffix (c :: tail)).trans hsuf
  have htail_nt := noTrail_suffix (strip raw) tail hLnt htail_suf2
  have hdne : m.descr ≠ [] := by
    rw [hd]
    exact dropWhile_ne_nil_noTrail tail htail_ne htail_nt
  have hd_suf : m.descr <:+ strip raw := by
    rw [hd]
    exact (List.dropWhile_suffix isSpace).trans htail_suf2
  have hd_nt := noTrail_suffix (strip raw) m.descr hLnt hd_suf
  exact ⟨hdne, strip_ne_nil_noTrail m.descr hdne hd_nt⟩

theorem snField_exact (sn r : Str)
    (hsn : (sn.length = 16 ∧ ∀ c ∈ sn, isHex c = true) ∨ sn = "-".data) :
    snField (sn ++ r) = some (sn, r) := by
  rcases hsn with ⟨hlen, hhex⟩ | rfl
  · unfold snField
    have ht := takeN_exact isHex sn r hhex
    rw [hlen] at ht
    rw [ht]
  · rfl

theorem distField_exact (dist r : Str)
    (hdist : (dist ≠ [] ∧ ∀ c ∈ dist, isDigit c = true) ∨ dist = "-".data)
    (hrd : List.dropWhile isDigit r = r) :
    distField (dist ++ r) = some (dist, r) := by
  rcases hdist with ⟨hne, hdig⟩ | rfl
  · unfold distField
    have hcond : (((dist ++ r).head?.map isDigit).getD false) = true := by
      rw [head?_append_ne dist r hne]
      cases dist with
      | nil => exact absurd rfl hne
      | cons c cs =>
        simp only [List.head?_cons, Option.map_some', Option.getD_some]
        exact hdig c (List.mem_cons_self _ _)
    rw [if_pos hcond, span_exact isDigit dist r hdig hrd]
  · rfl

theorem table2Match_build (ontId sn typ dist pw w1 w2 w3 w4 w5 desc : Str)
    (hid : ontId ≠ []) (hidd : ∀ c ∈ ontId, isDigit c = true)
    (hsn : (sn.length = 16 ∧ ∀ c ∈ sn, isHex c = true) ∨ sn = "-".data)
    (htyp : typ ≠ []) (htyps : ∀ c ∈ typ, isSpace c = false)
    (hdist : (dist ≠ [] ∧ ∀ c ∈ dist, isDigit c = true) ∨ dist = "-".data)
    (hpw : pw ≠ []) (hpws : ∀ c ∈ pw, isSpace c = false)
    (hslash : hasInteriorSlash pw = true)
    (hw1 : w1 ≠ []) (hw1s : ∀ c ∈ w1, isSpace c = true)
    (hw2 : w2 ≠ []) (hw2s : ∀ c ∈ w2, isSpace c = true)
    (hw3 : w3 ≠ []) (hw3s : ∀ c ∈ w3, isSpace c = true)
    (hw4 : w4 ≠ []) (hw4s : ∀ c ∈ w4, isSpace c = true)
    (hw5 : w5 ≠ []) (hw5s : ∀ c ∈ w5, isSpace c = true)
    (hdesc : List.dropWhile isSpace desc = desc) :
    table2Match (ontId ++ w1 ++ sn ++ w2 ++ typ ++ w3 ++ dist ++ w4 ++ pw ++ w5 ++ desc)
      = some ⟨ontId, sn, typ, dist, pw, desc⟩ := by
  have hsn_ne : sn ≠ [] := by
    rcases hsn with ⟨hlen, _⟩ | rfl
    · intro hh
      rw [hh] at hlen
      simp at hlen
    · decide
  have hdist_ne : dist ≠ [] := by
    rcases hdist with ⟨hne, _⟩ | rfl
    · exact hne
    · decide
  have hsn_hd : ∀ c, sn.head? = some c → isSpace c = false := by
    rcases hsn with ⟨_, hhex⟩ | rfl
    · exact fun c hc => isHex_not_space c (head_all isHex sn hhex c hc)
    · intro c hc
      have h0 : (("-".data : Str)).head? = some '-' := rfl
      rw [h0] at hc
      obtain rfl := Option.some.inj hc
      rfl
  have hdist_hd : ∀ c, dist.head? = some c → isSpace c = false := by
    rcases hdist with ⟨_, hdig⟩ | rfl
    · exact fun c hc => isDigit_not_space c (head_all isDigit dist hdig c hc)
    · intro c hc
      have h0 : (("-".data : Str)).head? = some '-' := rfl
      rw [h0] at hc
      obtain rfl := Option.some.inj hc
      rfl
  have hid_hd : ∀ c, ontId.head? = some c → isSpace c = false :=
    fun c hc => isDigit_not_space c (head_all isDigit ontId hidd c hc)
  have htyp_hd : ∀ c, typ.head? = some c → isSpace c = false :=
    head_all_false isSpace typ htyps
  have hpw_hd : ∀ c, pw.head? = some c → isSpace c = false :=
    head_all_false isSpace pw hpws
  have hself : ∀ (a r : Str), a ≠ [] → (∀ c, a.head? = some c → isSpace c = false) →
      List.dropWhile isSpace (a ++ r) = a ++ r :=
    fun a r hne hhd => dropWhile_eq_self_of_head isSpace (a ++ r)
      (fun c hc => hhd c (by rwa [head?_append_ne a r hne] at hc))
  have hselfD : ∀ (w r : Str), w ≠ [] → (∀ c ∈ w, isSpace c = true) →
      List.dropWhile isDigit (w ++ r) = w ++ r :=
    fun w r hne hws => dropWhile_eq_self_of_head isDigit (w ++ r)
      (fun c hc => isSpace_not_digit c
        (head_all isSpace w hws c (by rwa [head?_append_ne w r hne] at hc)))
  have hselfNS : ∀ (w r : Str), w ≠ [] → (∀ c ∈ w, isSpace c = true) →
      List.dropWhile (fun c => !(isSpace c)) (w ++ r) = w ++ r :=
    fun w r hne hws => dropWhile_eq_self_of_head _ (w ++ r)
      (fun c hc => by
        have hcs := head_all isSpace w hws c (by rwa [head?_append_ne w r hne] at hc)
        simp [hcs])
  simp only [table2Match, List.append_assoc]
  rw [hself ontId _ hid hid_hd]
  rw [digits1_exact ontId _ hid hidd (hselfD w1 _ hw1 hw1s)]
  simp only [Option.bind_eq_bind, Option.some_bind]
  rw [reqWs_append w1 _ hw1 hw1s (hself sn _ hsn_ne hsn_hd)]
  simp only [Option.bind_eq_bind, Option.some_bind]
  rw [snField_exact sn _ hsn]
  simp only [Option.bind_eq_bind, Option.some_bind]
  rw [reqWs_append w2 _ hw2 hw2s (hself typ _ htyp htyp_hd)]
  simp only [Option.bind_eq_bind, Option.some_bind]
  rw [span_exact (fun c => !(isSpace c)) typ _
    (by intro c hc; simp [htyps c hc]) (hselfNS w3 _ hw3 hw3s)]
  rw [isEmpty_false_of_ne typ htyp]
  simp only [Bool.false_eq_true, if_false]
  rw [reqWs_append w3 _ hw3 hw3s (hself dist _ hdist_ne hdist_hd)]
  simp only [Option.bind_eq_bind, Option.some_bind]
  rw [distField_exact dist _ hdist (hselfD w4 _ hw4 hw4s)]
  simp only [Option.bind_eq_bind, Option.some_bind]
  rw [reqWs_append w4 _ hw4 hw4s (hself pw _ hpw hpw_hd)]
  simp only [Option.bind_eq_bind, Option.some_bind]
  rw [span_exact (fun c => !(isSpace c)) pw _
    (by intro c hc; simp [hpws c hc]) (hselfNS w5 _ hw5 hw5s)]
  rw [isEmpty_false_of_ne pw hpw]
  simp only [Bool.false_eq_true, if_false]
  rw [hslash]
  simp only [if_true]
  rw [reqWs_append w5 _ hw5 hw5s hdesc]
  simp only [Option.bind_eq_bind, Option.some_bind]

theorem span_all (p : Char → Bool) (a : Str) (ha : ∀ c ∈ a, p c = true) :
    a.span p = (a, []) := by
  have h := span_exact p a [] ha rfl
  rwa [List.append_nil] at h

theorem table2Match_no_desc (ontId sn typ dist pw w1 w2 w3 w4 : Str)
    (hid : ontId ≠ []) (hidd : ∀ c ∈ ontId, isDigit c = true)
    (hsn : (sn.length = 16 ∧ ∀ c ∈ sn, isHex c = true) ∨ sn = "-".data)
    (htyp : typ ≠ []) (htyps : ∀ c ∈ typ, isSpace c = false)
    (hdist : (dist ≠ [] ∧ ∀ c ∈ dist, isDigit c = true) ∨ dist = "-".data)
    (hpw : pw ≠ []) (hpws : ∀ c ∈ pw, isSpace c = false)
    (hslash : hasInteriorSlash pw = true)
    (hw1 : w1 ≠ []) (hw1s : ∀ c ∈ w1, isSpace c = true)
    (hw2 : w2 ≠ []) (hw2s : ∀ c ∈ w2, isSpace c = true)
    (hw3 : w3 ≠ []) (hw3s : ∀ c ∈ w3, isSpace c = true)
    (hw4 : w4 ≠ []) (hw4s : ∀ c ∈ w4, isSpace c = true) :
    table2Match (ontId ++ w1 ++ sn ++ w2 ++ typ ++ w3 ++ dist ++ w4 ++ pw) = none := by
  have hsn_ne : sn ≠ [] := by
    rcases hsn with ⟨hlen, _⟩ | rfl
    · intro hh
      rw [hh] at hlen
      simp at hlen
    · decide
  have hdist_ne : dist ≠ [] := by
    rcases hdist with ⟨hne, _⟩ | rfl
    · exact hne
    · decide
  have hsn_hd : ∀ c, sn.head? = some c → isSpace c = false := by
    rcases hsn with ⟨_, hhex⟩ | rfl
    · exact fun c hc => isHex_not_space c (head_all isHex sn hhex c hc)
    · intro c hc
      have h0 : (("-".data : Str)).head? = some '-' := rfl
      rw [h0] at hc
      obtain rfl := Option.some.inj hc
      rfl
  have hdist_hd : ∀ c, dist.head? = some c → isSpace c = false := by
    rcases hdist with ⟨_, hdig⟩ | rfl
    · exact fun c hc => isDigit_not_space c (head_all isDigit dist hdig c hc)
    · intro c hc
      have h0 : (("-".data : Str)).head? = some '-' := rfl
      rw [h0] at hc
      obtain rfl := Option.some.inj hc
      rfl
  have hid_hd : ∀ c, ontId.head? = some c → isSpace c = false :=
    fun c hc => isDigit_not_space c (head_all isDigit ontId hidd c hc)
  have htyp_hd : ∀ c, typ.head? = some c → isSpace c = false :=
    head_all_false isSpace typ htyps
  have hpw_hd : ∀ c, pw.head? = some c → isSpace c = false :=
    head_all_false isSpace pw hpws
  have hself : ∀ (a r : Str), a ≠ [] → (∀ c, a.head? = some c → isSpace c = false) →
      List.dropWhile isSpace (a ++ r) = a ++ r :=
    fun a r hne hhd => dropWhile_eq_self_of_head isSpace (a ++ r)
      (fun c hc => hhd c (by rwa [head?_append_ne a r hne] at hc))
  have hselfD : ∀ (w r : Str), w ≠ [] → (∀ c ∈ w, isSpace c = true) →
      List.dropWhile isDigit (w ++ r) = w ++ r :=
    fun w r hne hws => dropWhile_eq_self_of_head isDigit (w ++ r)
      (fun c hc => isSpace_not_digit c
        (head_all isSpace w hws c (by rwa [head?_append_ne w r hne] at hc)))
  have hselfNS : ∀ (w r : Str), w ≠ [] → (∀ c ∈ w, isSpace c = true) →
      List.dropWhile (fun c => !(isSpace c)) (w ++ r) = w ++ r :=
    fun w r hne hws => dropWhile_eq_self_of_head _ (w ++ r)
      (fun c hc => by
        have hcs := head_all isSpace w hws c (by rwa [head?_append_ne w r hne] at hc)
        simp [hcs])
  have hselfSelf : List.dropWhile isSpace pw = pw :=
    dropWhile_eq_self_of_head isSpace pw hpw_hd
  simp only [table2Match, List.append_assoc]
  rw [hself ontId _ hid hid_hd]
  rw [digits1_exact ontId _ hid hidd (hselfD w1 _ hw1 hw1s)]
  simp only [Option.bind_eq_bind, Option.some_bind]
  rw [reqWs_append w1 _ hw1 hw1s (hself sn _ hsn_ne hsn_hd)]
  simp only [Option.bind_eq_bind, Option.some_bind]
  rw [snField_exact sn _ hsn]
  simp only [Option.bind_eq_bind, Option.some_bind]
  rw [reqWs_append w2 _ hw2 hw2s (hself typ _ htyp htyp_hd)]
  simp only [Option.bind_eq_bind, Option.some_bind]
  rw [span_exact (fun c => !(isSpace c)) typ _
    (by intro c hc; simp [htyps c hc]) (hselfNS w3 _ hw3 hw3s)]
  rw [isEmpty_false_of_ne typ htyp]
  simp only [Bool.false_eq_true, if_false]
  rw [reqWs_append w3 _ hw3 hw3s (hself dist _ hdist_ne hdist_hd)]
  simp only [Option.bind_eq_bind, Option.some_bind]
  rw [distField_exact dist _ hdist (hselfD w4 _ hw4 hw4s)]
  simp only [Option.bind_eq_bind, Option.some_bind]
  rw [reqWs_append w4 _ hw4 hw4s hselfSelf]
  simp only [Option.bind_eq_bind, Option.some_bind]
  rw [span_all (fun c => !(isSpace c)) pw (by intro c hc; simp [hpws c hc])]
  rw [isEmpty_false_of_ne pw hpw]
  simp only [Bool.false_eq_true, if_false]
  rw [hslash]
  simp only [if_true]
  rfl

/-- Claim C3 as amended: for every line whose device id, serial number,
    hardware type, distance and power fields match the Table-2 grammar,
    (1) when at least one whitespace character follows the power field,
    the remaining text is accepted as the free-text description (which
    may contain internal whitespace); (2) a line that ends immediately
    after the power field does not match and is skipped; (3) in state
    IN_TABLE_2 a matching line is stored into the Table-2 accumulator
    with the trimmed description; and (4) the stored (trimmed)
    description is never empty, because lines are stripped before
    matching. -/
theorem claim_C3 :
    (∀ (ontId sn typ dist pw w1 w2 w3 w4 w5 desc : Str),
      ontId ≠ [] → (∀ c ∈ ontId, isDigit c = true) →
      ((sn.length = 16 ∧ ∀ c ∈ sn, isHex c = true) ∨ sn = "-".data) →
      typ ≠ [] → (∀ c ∈ typ, isSpace c = false) →
      ((dist ≠ [] ∧ ∀ c ∈ dist, isDigit c = true) ∨ dist = "-".data) →
      pw ≠ [] → (∀ c ∈ pw, isSpace c = false) → hasInteriorSlash pw = true →
      w1 ≠ [] → (∀ c ∈ w1, isSpace c = true) →
      w2 ≠ [] → (∀ c ∈ w2, isSpace c = true) →
      w3 ≠ [] → (∀ c ∈ w3, isSpace c = true) →
      w4 ≠ [] → (∀ c ∈ w4, isSpace c = true) →
      w5 ≠ [] → (∀ c ∈ w5, isSpace c = true) →
      List.dropWhile isSpace desc = desc →
      table2Match (ontId ++ w1 ++ sn ++ w2 ++ typ ++ w3 ++ dist ++ w4 ++ pw ++ w5 ++ desc)
        = some ⟨ontId, sn, typ, dist, pw, desc⟩) ∧
    (∀ (ontId sn typ dist pw w1 w2 w3 w4 : Str),
      ontId ≠ [] → (∀ c ∈ ontId, isDigit c = true) →
      ((sn.length = 16 ∧ ∀ c ∈ sn, isHex c = true) ∨ sn = "-".data) →
      typ ≠ [] → (∀ c ∈ typ, isSpace c = false) →
      ((dist ≠ [] ∧ ∀ c ∈ dist, isDigit c = true) ∨ dist = "-".data) →
      pw ≠ [] → (∀ c ∈ pw, isSpace c = false) → hasInteriorSlash pw = true →
      w1 ≠ [] → (∀ c ∈ w1, isSpace c = true) →
      w2 ≠ [] → (∀ c ∈ w2, isSpace c = true) →
      w3 ≠ [] → (∀ c ∈ w3, isSpace c = true) →
      w4 ≠ [] → (∀ c ∈ w4, isSpace c = true) →
      table2Match (ontId ++ w1 ++ sn ++ w2 ++ typ ++ w3 ++ dist ++ w4 ++ pw) = none) ∧
    (∀ (oltName popName : Str) (st : PState) (raw : Str) (p : Str) (m : T2M),
      portSearch (strip raw) = none → st.currentPort = some p →
      t1HeaderSearch (strip raw) = false → t2HeaderSearch (strip raw) = false →
      isSep (strip raw) = false → st.parsingState = some TState.table2 →
      table2Match (strip raw) = some m →
      step oltName popName st raw =
        some { st with t2 := (dinsert m.ontId
          ⟨m.sn, remapType m.ontType, m.dist, m.pow, strip m.descr⟩ st.t2) }) ∧
    (∀ (raw : Str) (m : T2M), table2Match (strip raw) = some m → strip m.descr ≠ []) := by
  refine ⟨table2Match_build, table2Match_no_desc, step_eq_data2, ?_⟩
  intro raw m h
  exact (table2Match_strip_descr raw m h).2

/-- Witness for C3: a grammar-matching line with hyphen serial number,
    hyphen distance and an internally-spaced description is accepted; the
    same field shapes with nothing after the power field are rejected; a
    concrete line is stored by a step in state IN_TABLE_2; and its stored
    description is nonempty. -/
theorem claim_C3_witness :
    table2Match ("2".data ++ " ".data ++ "-".data ++ " ".data ++ "5806G".data ++ " ".data
        ++ "-".data ++ " ".data ++ "-/-".data ++ " ".data ++ "hello  world".data)
      = some ⟨"2".data, "-".data, "5806G".data, "-".data, "-/-".data, "hello  world".data⟩ ∧
    table2Match ("1".data ++ " ".data ++ "ABCDEF0123456789".data ++ " ".data ++ "1112".data
        ++ " ".data ++ "120".data ++ " ".data ++ "-25.3/2.1".data) = none ∧
    step ("O".data) ("P".data) ⟨[], some ("0/1/0".data), some TState.table2, [], []⟩
      ("1 ABCDEF0123456789 1112 120 -25.3/2.1 Customer A".data) =
      some ⟨[], some ("0/1/0".data), some TState.table2, [],
        [(("1".data), (⟨"ABCDEF0123456789".data, "GP1702-4G".data, "120".data,
            "-25.3/2.1".data, "Customer A".data⟩ : T2Row))]⟩ ∧
    strip ((⟨"1".data, "ABCDEF0123456789".data, "1112".data, "120".data, "-25.3/2.1".data,
        "Customer A".data⟩ : T2M)).descr ≠ [] := by
  refine ⟨?_, ?_, ?_, ?_⟩
  · exact claim_C3.1 ("2".data) ("-".data) ("5806G".data) ("-".data) ("-/-".data)
      (" ".data) (" ".data) (" ".data) (" ".data) (" ".data) ("hello  world".data)
      (by decide) (by decide) (Or.inr rfl) (by decide) (by decide) (Or.inr rfl)
      (by decide) (by decide) (by decide)
      (by decide) (by decide) (by decide) (by decide) (by decide) (by decide)
      (by decide) (by decide) (by decide) (by decide) (by decide)
  · exact claim_C3.2.1 ("1".data) ("ABCDEF0123456789".data) ("1112".data) ("120".data)
      ("-25.3/2.1".data) (" ".data) (" ".data) (" ".data) (" ".data)
      (by decide) (by decide) (Or.inl ⟨by decide, by decide⟩) (by decide) (by decide)
      (Or.inl ⟨by decide, by decide⟩) (by decide) (by decide) (by decide)
      (by decide) (by decide) (by decide) (by decide) (by decide) (by decide)
      (by decide) (by decide)
  · exact claim_C3.2.2.1 ("O".data) ("P".data)
      ⟨[], some ("0/1/0".data), some TState.table2, [], []⟩
      ("1 ABCDEF0123456789 1112 120 -25.3/2.1 Customer A".data) ("0/1/0".data)
      ⟨"1".data, "ABCDEF0123456789".data, "1112".data, "120".data, "-25.3/2.1".data,
        "Customer A".data⟩
      (by rfl) rfl (by rfl) (by rfl) (by rfl) rfl (by rfl)
  · exact claim_C3.2.2.2 ("1 ABCDEF0123456789 1112 120 -25.3/2.1 Customer A".data)
      ⟨"1".data, "ABCDEF0123456789".data, "1112".data, "120".data, "-25.3/2.1".data,
        "Customer A".data⟩ (by rfl)
